import Mathlib

/-!
Verification of the Reox compiler front-end (lexer, parser, type checker,
tree-walking interpreter) against its specification.

The Rust sources under reox-lang/src are shallowly embedded:

* the source text is modelled as a list of characters; span positions count
  characters (for the ASCII programs of every concrete scenario this agrees
  with the byte positions of the Rust implementation, and character
  classification follows the ASCII meaning of the Rust predicates);
* Rust 64-bit float payloads are kept as the literal text: no claim observes
  a floating-point value, only the Float tag of tokens and runtime values;
* hash maps are association lists with insert-replaces-existing semantics;
* loops in the Rust code become fuel-indexed recursion; at the top level
  enough fuel is supplied for the fallback branches to be unreachable, and
  theorems about the loops quantify over sufficient fuel;
* Rust i64 arithmetic is modelled on unbounded integers with explicit
  two's-complement wrapping where the operation can overflow, and the
  division / remainder overflow checks, which abort in every build profile,
  become a distinct fatal outcome of evaluation.
-/

namespace Reox

/-! ## Lexer data model (lexer/token.rs) -/

/-- Source location attached to every token (token.rs, `Span`). -/
structure Span where
  line : Nat
  column : Nat
  start : Nat
  stop : Nat
deriving DecidableEq, Repr

/-- Float literals keep their source text; no claim observes float values. -/
abbrev F64 := String

/-- Token kinds of the Reox language (token.rs, `TokenKind`).
The Rust `Extern` keyword tag is named `ExternKw` here. -/
inductive TokenKind where
  | Fn | Let | Mut | If | Else | While | For | In | Return | Struct
  | Match | Import | ExternKw | True | False
  | Kind | Layer | Panel | Action | Maybe | Effect | Bind | Emit | Signal
  | When | Self_ | Pub | Async | Await
  | Guard | Defer | Throw | Try | Catch | Where | Typealias | Protocol
  | Extension | Static | Const | Nil
  | Gesture | OnTap | OnPan | OnSwipe | OnPinch | OnRotate
  | Int | Float | String | Bool | Void
  | Ident (s : String) | IntLit (v : Int) | FloatLit (v : F64)
  | StringLit (s : String)
  | Plus | Minus | Star | Slash | Percent | Eq | EqEq | BangEq
  | Lt | Gt | LtEq | GtEq | And | Or | Bang | Arrow | FatArrow
  | Question | Pipe | Ampersand
  | PlusEq | MinusEq | StarEq | SlashEq | PercentEq
  | PlusPlus | MinusMinus
  | BitwiseAnd | BitwiseOr | BitwiseXor | BitwiseNot | ShiftLeft | ShiftRight
  | QuestionQuestion | QuestionDot
  | LParen | RParen | LBrace | RBrace | LBracket | RBracket
  | Comma | Semicolon | Colon | Dot | At | Hash | DotDot
  | Eof

/-- Constructor discriminant of a token kind, mirroring what Rust
`std::mem::discriminant` distinguishes: the variant, ignoring payloads. -/
def TokenKind.discr : TokenKind → Nat
  | .Fn => 0 | .Let => 1 | .Mut => 2 | .If => 3 | .Else => 4 | .While => 5
  | .For => 6 | .In => 7 | .Return => 8 | .Struct => 9 | .Match => 10
  | .Import => 11 | .ExternKw => 12 | .True => 13 | .False => 14
  | .Kind => 15 | .Layer => 16 | .Panel => 17 | .Action => 18 | .Maybe => 19
  | .Effect => 20 | .Bind => 21 | .Emit => 22 | .Signal => 23 | .When => 24
  | .Self_ => 25 | .Pub => 26 | .Async => 27 | .Await => 28
  | .Guard => 29 | .Defer => 30 | .Throw => 31 | .Try => 32 | .Catch => 33
  | .Where => 34 | .Typealias => 35 | .Protocol => 36 | .Extension => 37
  | .Static => 38 | .Const => 39 | .Nil => 40
  | .Gesture => 41 | .OnTap => 42 | .OnPan => 43 | .OnSwipe => 44
  | .OnPinch => 45 | .OnRotate => 46
  | .Int => 47 | .Float => 48 | .String => 49 | .Bool => 50 | .Void => 51
  | .Ident _ => 52 | .IntLit _ => 53 | .FloatLit _ => 54 | .StringLit _ => 55
  | .Plus => 56 | .Minus => 57 | .Star => 58 | .Slash => 59 | .Percent => 60
  | .Eq => 61 | .EqEq => 62 | .BangEq => 63 | .Lt => 64 | .Gt => 65
  | .LtEq => 66 | .GtEq => 67 | .And => 68 | .Or => 69 | .Bang => 70
  | .Arrow => 71 | .FatArrow => 72 | .Question => 73 | .Pipe => 74
  | .Ampersand => 75
  | .PlusEq => 76 | .MinusEq => 77 | .StarEq => 78 | .SlashEq => 79
  | .PercentEq => 80 | .PlusPlus => 81 | .MinusMinus => 82
  | .BitwiseAnd => 83 | .BitwiseOr => 84 | .BitwiseXor => 85
  | .BitwiseNot => 86 | .ShiftLeft => 87 | .ShiftRight => 88
  | .QuestionQuestion => 89 | .QuestionDot => 90
  | .LParen => 91 | .RParen => 92 | .LBrace => 93 | .RBrace => 94
  | .LBracket => 95 | .RBracket => 96 | .Comma => 97 | .Semicolon => 98
  | .Colon => 99 | .Dot => 100 | .At => 101 | .Hash => 102 | .DotDot => 103
  | .Eof => 104

/-- Test for the `Eof` kind (Rust compares kinds with `==`; `Eof` carries no
payload, so the comparison is exactly this test). -/
def kindIsEof : TokenKind → Bool
  | .Eof => true
  | _ => false

/-- Keyword lookup table (token.rs, `TokenKind::keyword_from_str`). -/
def keyword_from_str (s : String) : Option TokenKind :=
  match s with
  | "fn" => some .Fn
  | "let" => some .Let
  | "mut" => some .Mut
  | "if" => some .If
  | "else" => some .Else
  | "while" => some .While
  | "for" => some .For
  | "in" => some .In
  | "return" => some .Return
  | "struct" => some .Struct
  | "match" => some .Match
  | "import" => some .Import
  | "extern" => some .ExternKw
  | "true" => some .True
  | "false" => some .False
  | "int" => some .Int
  | "float" => some .Float
  | "string" => some .String
  | "bool" => some .Bool
  | "void" => some .Void
  | "kind" => some .Kind
  | "layer" => some .Layer
  | "panel" => some .Panel
  | "action" => some .Action
  | "maybe" => some .Maybe
  | "effect" => some .Effect
  | "bind" => some .Bind
  | "emit" => some .Emit
  | "signal" => some .Signal
  | "when" => some .When
  | "self" => some .Self_
  | "pub" => some .Pub
  | "async" => some .Async
  | "await" => some .Await
  | "guard" => some .Guard
  | "defer" => some .Defer
  | "throw" => some .Throw
  | "try" => some .Try
  | "catch" => some .Catch
  | "where" => some .Where
  | "typealias" => some .Typealias
  | "protocol" => some .Protocol
  | "extension" => some .Extension
  | "static" => some .Static
  | "const" => some .Const
  | "nil" => some .Nil
  | "gesture" => some .Gesture
  | "on_tap" => some .OnTap
  | "on_pan" => some .OnPan
  | "on_swipe" => some .OnSwipe
  | "on_pinch" => some .OnPinch
  | "on_rotate" => some .OnRotate
  | _ => none

/-- A token: kind plus span (token.rs, `Token`). -/
structure Token where
  kind : TokenKind
  span : Span

/-- The end-of-file token (token.rs, `Token::eof`): line and column are
hard-coded to 0 and the span is the empty range at `pos`. -/
def Token.eof (pos : Nat) : Token :=
  { kind := .Eof, span := { line := 0, column := 0, start := pos, stop := pos } }

/-- Lexer error (lexer/mod.rs, `LexError`). -/
structure LexError where
  message : String
  line : Nat
  column : Nat
deriving DecidableEq

/-! ## Lexer state and scanning (lexer/mod.rs)

The Rust `Lexer` walks a `CharIndices` iterator; here the not-yet-consumed
characters are `rest` and `pos` is the index of the next character, so the
index handed out by `advance` for the consumed character is the `pos` of the
state before the step.  `currentPos` mirrors the Rust `current_pos` field:
the index of the most recently consumed character, initially 0. -/

structure LexState where
  rest : List Char
  line : Nat
  col : Nat
  pos : Nat
  currentPos : Nat

/-- One `advance` step (lexer/mod.rs, `Lexer::advance`); on empty input the
state is unchanged, matching the `None` branch. -/
def LexState.adv : LexState → LexState
  | ⟨[], l, c, p, cp⟩ => ⟨[], l, c, p, cp⟩
  | ⟨ch :: tl, l, c, p, _⟩ =>
    if ch = '\n' then ⟨tl, l + 1, 1, p + 1, p⟩ else ⟨tl, l, c + 1, p + 1, p⟩

/-- Line-comment skipping: the loop inside
`Lexer::skip_whitespace_and_comments` that advances until the next newline,
leaving the newline unconsumed. -/
def skipLineComment : Nat → LexState → LexState
  | 0, st => st
  | fuel + 1, st =>
    match st.rest with
    | [] => st
    | c :: _ => if c = '\n' then st else skipLineComment fuel st.adv

/-- Nestable block-comment skipping with a depth counter
(`Lexer::skip_whitespace_and_comments`, block-comment branch). -/
def skipBlockComment : Nat → Nat → LexState → LexState
  | 0, _, st => st
  | fuel + 1, depth, st =>
    if depth = 0 then st else
    match st.rest with
    | [] => st
    | c :: tl =>
      if c = '*' ∧ tl.head? = some '/' then
        skipBlockComment fuel (depth - 1) st.adv.adv
      else if c = '/' ∧ tl.head? = some '*' then
        skipBlockComment fuel (depth + 1) st.adv.adv
      else
        skipBlockComment fuel depth st.adv

/-- Whitespace and comment skipping
(lexer/mod.rs, `Lexer::skip_whitespace_and_comments`). -/
def skipWs : Nat → LexState → LexState
  | 0, st => st
  | fuel + 1, st =>
    match st.rest with
    | [] => st
    | c :: tl =>
      if c = ' ' ∨ c = '\t' ∨ c = '\r' ∨ c = '\n' then
        skipWs fuel st.adv
      else if c = '/' then
        if tl.head? = some '/' then
          skipWs fuel (skipLineComment fuel st.adv.adv)
        else if tl.head? = some '*' then
          skipWs fuel (skipBlockComment fuel 1 st.adv.adv)
        else st
      else st

/-- Continuation characters of identifiers: the Rust code uses
`ch.is_alphanumeric() || ch == '_'`; the embedding fixes the ASCII reading. -/
def isIdentCont (c : Char) : Bool :=
  c.isAlphanum || c = '_'

/-- Start characters of identifiers
(`next_token` arm for letters and underscore). -/
def isIdentStart (c : Char) : Bool :=
  (('a' ≤ c ∧ c ≤ 'z') ∨ ('A' ≤ c ∧ c ≤ 'Z') ∨ c = '_' : Prop)

/-- The scanning loop of `Lexer::scan_identifier`, accumulating the
identifier text that the Rust code recovers by slicing the source. -/
def scanIdentLoop : Nat → LexState → List Char → List Char × LexState
  | 0, st, acc => (acc, st)
  | fuel + 1, st, acc =>
    match st.rest with
    | [] => (acc, st)
    | c :: _ =>
      if isIdentCont c then scanIdentLoop fuel st.adv (acc ++ [c])
      else (acc, st)

/-- Identifier or keyword scanning (lexer/mod.rs, `Lexer::scan_identifier`).
`st` is the state after the first character was consumed. -/
def scan_identifier (fuel : Nat) (st : LexState) (first : Char)
    (startLine startCol startPos : Nat) : Token × LexState :=
  let (chars, st1) := scanIdentLoop fuel st [first]
  let text : String := ⟨chars⟩
  let span : Span := ⟨startLine, startCol, startPos, startPos + chars.length⟩
  let kind := (keyword_from_str text).getD (.Ident text)
  (⟨kind, span⟩, st1)

/-- Value of an ASCII hex digit. -/
def hexDigitVal (c : Char) : Nat :=
  if c.isDigit then c.toNat - '0'.toNat
  else if 'a' ≤ c ∧ c ≤ 'f' then c.toNat - 'a'.toNat + 10
  else if 'A' ≤ c ∧ c ≤ 'F' then c.toNat - 'A'.toNat + 10
  else 0

/-- Numeric value of a digit string in the given base. -/
def digitsVal (base : Nat) (ds : List Char) : Nat :=
  ds.foldl (fun acc c => acc * base + hexDigitVal c) 0

/-- Largest i64 value, the overflow bound of Rust `str::parse::<i64>` and
`i64::from_str_radix` on unsigned digit strings. -/
def i64Max : Nat := 2 ^ 63 - 1

/-- ASCII hex digits, the Rust `char::is_ascii_hexdigit`. -/
def isHexDigitChar (c : Char) : Bool :=
  c.isDigit || ('a' ≤ c ∧ c ≤ 'f' : Prop) || ('A' ≤ c ∧ c ≤ 'F' : Prop)

/-- Hex-digit scanning loop of `Lexer::scan_number`. -/
def scanHexLoop : Nat → LexState → List Char → List Char × LexState
  | 0, st, acc => (acc, st)
  | fuel + 1, st, acc =>
    match st.rest with
    | [] => (acc, st)
    | c :: _ =>
      if isHexDigitChar c then scanHexLoop fuel st.adv (acc ++ [c])
      else (acc, st)

/-- Decimal scanning loop of `Lexer::scan_number`: digits, and at most one
dot that must be followed by a digit (otherwise it is left for the
punctuator scanner). -/
def scanDecLoop : Nat → LexState → List Char → Bool → List Char × LexState × Bool
  | 0, st, acc, isFloat => (acc, st, isFloat)
  | fuel + 1, st, acc, isFloat =>
    match st.rest with
    | [] => (acc, st, isFloat)
    | c :: tl =>
      if c.isDigit then scanDecLoop fuel st.adv (acc ++ [c]) isFloat
      else if c = '.' ∧ isFloat = false then
        match tl.head? with
        | some nxt =>
          if nxt.isDigit then scanDecLoop fuel st.adv (acc ++ [c]) true
          else (acc, st, isFloat)
        | none => (acc, st, isFloat)
      else (acc, st, isFloat)

/-- Number scanning (lexer/mod.rs, `Lexer::scan_number`).  `st` is the state
after the leading digit `first` was consumed; the Rust hex test
`source[start_pos..].starts_with("0x")` becomes a test on the leading digit
and the next character. -/
def scan_number (fuel : Nat) (st : LexState) (first : Char)
    (startLine startCol startPos : Nat) : Except LexError (Token × LexState) :=
  if first = '0' ∧ (st.rest.head? = some 'x' ∨ st.rest.head? = some 'X') then
    let xChar := st.rest.head?.getD 'x'
    let (digits, st1) := scanHexLoop fuel st.adv []
    let text : String := ⟨first :: xChar :: digits⟩
    let span : Span :=
      ⟨startLine, startCol, startPos, startPos + 2 + digits.length⟩
    if digits = [] ∨ digitsVal 16 digits > i64Max then
      .error ⟨"invalid hex literal: " ++ text, startLine, startCol⟩
    else
      .ok (⟨.IntLit (digitsVal 16 digits), span⟩, st1)
  else
    let (tail, st1, isFloat) := scanDecLoop fuel st [] false
    let text : String := ⟨first :: tail⟩
    let span : Span :=
      ⟨startLine, startCol, startPos, startPos + 1 + tail.length⟩
    if isFloat then
      .ok (⟨.FloatLit text, span⟩, st1)
    else if digitsVal 10 (first :: tail) > i64Max then
      .error ⟨"invalid integer literal: " ++ text, startLine, startCol⟩
    else
      .ok (⟨.IntLit (digitsVal 10 (first :: tail)), span⟩, st1)

/-- String scanning loop (lexer/mod.rs, `Lexer::scan_string`); returns the
decoded value and the index of the closing quote.  `st` is the state after
the opening quote. -/
def scanStringLoop (startLine startCol : Nat) :
    Nat → LexState → List Char → Except LexError (List Char × Nat × LexState)
  | 0, _, _ => .error ⟨"unterminated string literal", startLine, startCol⟩
  | fuel + 1, st, acc =>
    match st.rest with
    | [] => .error ⟨"unterminated string literal", startLine, startCol⟩
    | c :: tl =>
      if c = '"' then .ok (acc, st.pos, st.adv)
      else if c = '\\' then
        match tl with
        | [] =>
          .error ⟨"unexpected end of file in escape sequence",
                  st.adv.line, st.adv.col⟩
        | e :: _ =>
          let st2 := st.adv.adv
          if e = 'n' then scanStringLoop startLine startCol fuel st2 (acc ++ ['\n'])
          else if e = 't' then scanStringLoop startLine startCol fuel st2 (acc ++ ['\t'])
          else if e = 'r' then scanStringLoop startLine startCol fuel st2 (acc ++ ['\r'])
          else if e = '\\' then scanStringLoop startLine startCol fuel st2 (acc ++ ['\\'])
          else if e = '"' then scanStringLoop startLine startCol fuel st2 (acc ++ ['"'])
          else if e = '0' then
            scanStringLoop startLine startCol fuel st2 (acc ++ [Char.ofNat 0])
          else
            .error ⟨"invalid escape sequence", st2.line, st2.col⟩
      else if c = '\n' then
        .error ⟨"unterminated string literal", startLine, startCol⟩
      else scanStringLoop startLine startCol fuel st.adv (acc ++ [c])

/-- String scanning (lexer/mod.rs, `Lexer::scan_string`). -/
def scan_string (fuel : Nat) (st : LexState)
    (startLine startCol startPos : Nat) : Except LexError (Token × LexState) := do
  let (value, endPos, st1) ← scanStringLoop startLine startCol fuel st []
  let span : Span := ⟨startLine, startCol, startPos, endPos + 1⟩
  .ok (⟨.StringLit ⟨value⟩, span⟩, st1)

/-- One token (lexer/mod.rs, `Lexer::next_token`): skip whitespace and
comments, then dispatch on the next character, preferring two-character
operators over their one-character prefixes. -/
def next_token (fuel : Nat) (st0 : LexState) : Except LexError (Token × LexState) :=
  let st := skipWs fuel st0
  let sl := st.line
  let sc := st.col
  match st.rest with
  | [] => .ok (Token.eof st.currentPos, st)
  | ch :: tl =>
    let pos := st.pos
    let st1 := st.adv
    let one : Span := ⟨sl, sc, pos, pos + 1⟩
    let two : Span := ⟨sl, sc, pos, pos + 2⟩
    let single (k : TokenKind) : Except LexError (Token × LexState) :=
      .ok (⟨k, one⟩, st1)
    let double (k : TokenKind) : Except LexError (Token × LexState) :=
      .ok (⟨k, two⟩, st1.adv)
    match ch with
    | '(' => single .LParen
    | ')' => single .RParen
    | '{' => single .LBrace
    | '}' => single .RBrace
    | '[' => single .LBracket
    | ']' => single .RBracket
    | ',' => single .Comma
    | ';' => single .Semicolon
    | ':' => single .Colon
    | '@' => single .At
    | '~' => single .BitwiseNot
    | '^' => single .BitwiseXor
    | '.' =>
      if tl.head? = some '.' then double .DotDot else single .Dot
    | '+' =>
      match tl.head? with
      | some '=' => double .PlusEq
      | some '+' => double .PlusPlus
      | _ => single .Plus
    | '*' =>
      if tl.head? = some '=' then double .StarEq else single .Star
    | '%' =>
      if tl.head? = some '=' then double .PercentEq else single .Percent
    | '-' =>
      match tl.head? with
      | some '>' => double .Arrow
      | some '-' => double .MinusMinus
      | some '=' => double .MinusEq
      | _ => single .Minus
    | '/' =>
      if tl.head? = some '=' then double .SlashEq else single .Slash
    | '=' =>
      match tl.head? with
      | some '=' => double .EqEq
      | some '>' => double .FatArrow
      | _ => single .Eq
    | '!' =>
      if tl.head? = some '=' then double .BangEq else single .Bang
    | '<' =>
      match tl.head? with
      | some '=' => double .LtEq
      | some '<' => double .ShiftLeft
      | _ => single .Lt
    | '>' =>
      match tl.head? with
      | some '=' => double .GtEq
      | some '>' => double .ShiftRight
      | _ => single .Gt
    | '&' =>
      if tl.head? = some '&' then double .And else single .BitwiseAnd
    | '|' =>
      if tl.head? = some '|' then double .Or else single .BitwiseOr
    | '?' =>
      match tl.head? with
      | some '?' => double .QuestionQuestion
      | some '.' => double .QuestionDot
      | _ => single .Question
    | '"' => scan_string fuel st1 sl sc pos
    | _ =>
      if ch.isDigit then scan_number fuel st1 ch sl sc pos
      else if isIdentStart ch then .ok (scan_identifier fuel st1 ch sl sc pos)
      else .error ⟨"unexpected character", sl, sc⟩

/-- The token-collection loop of `tokenize`: gather tokens until the `Eof`
token is pushed. -/
def tokenizeLoop : Nat → LexState → List Token → Except LexError (List Token)
  | 0, _, acc => .ok acc
  | fuel + 1, st, acc =>
    match next_token (fuel + 1) st with
    | .error e => .error e
    | .ok (t, st1) =>
      if kindIsEof t.kind then .ok (acc ++ [t])
      else tokenizeLoop fuel st1 (acc ++ [t])

/-- Tokenize a source text (lexer/mod.rs, `tokenize`).  A non-`Eof` token
always consumes at least one character, so `length + 1` rounds of the loop
always reach the `Eof` token. -/
def tokenize (source : List Char) : Except LexError (List Token) :=
  tokenizeLoop (source.length + 1) ⟨source, 1, 1, 0, 0⟩ []

/-! ## AST (parser/ast.rs)

The Rust `Type` enum is named `Ty` (`Type` is reserved in Lean), the Rust
`Decl::Extern` variant is `Decl.ExternFn`, and the recursive statement
record types become one-constructor inductives inside the mutual block,
with their Rust field accessors defined as projections below. -/

/-- Syntactic type annotation (ast.rs, `Type`). -/
inductive Ty where
  | Int
  | Float
  | String
  | Bool
  | Void
  | Named (name : String)
  | Array (inner : Ty)
deriving DecidableEq

/-- Literal values (ast.rs, `Literal`). -/
inductive Literal where
  | Int (v : Int) (s : Span)
  | Float (v : F64) (s : Span)
  | String (v : String) (s : Span)
  | Bool (v : Bool) (s : Span)
deriving DecidableEq

/-- Binary operators (ast.rs, `BinOp`). -/
inductive BinOp where
  | Add | Sub | Mul | Div | Mod
  | Eq | Ne | Lt | Gt | Le | Ge
  | And | Or
  | BitwiseAnd | BitwiseOr | BitwiseXor | ShiftLeft | ShiftRight
deriving DecidableEq

/-- Unary operators (ast.rs, `UnaryOp`). -/
inductive UnaryOp where
  | Neg | Not | BitwiseNot
deriving DecidableEq

/-- Compound assignment operators (ast.rs, `CompoundOp`). -/
inductive CompoundOp where
  | AddEq | SubEq | MulEq | DivEq | ModEq
deriving DecidableEq

/-- Match patterns (ast.rs, `Pattern`). -/
inductive Pattern where
  | Literal (l : Literal)
  | Identifier (name : String)
  | Wildcard
deriving DecidableEq

mutual

/-- Expressions (ast.rs, `Expr`). -/
inductive Expr where
  | Literal (l : Literal)
  | Identifier (name : String) (s : Span)
  | Binary (l : Expr) (op : BinOp) (r : Expr) (s : Span)
  | Unary (op : UnaryOp) (e : Expr) (s : Span)
  | Call (callee : Expr) (args : List Expr) (s : Span)
  | Member (obj : Expr) (field : String) (s : Span)
  | Index (arr : Expr) (idx : Expr) (s : Span)
  | Assign (target : Expr) (value : Expr) (s : Span)
  | StructLit (name : String) (fields : List (String × Expr)) (s : Span)
  | ArrayLit (elements : List Expr) (s : Span)
  | Match (scrutinee : Expr) (arms : List MatchArm) (s : Span)
  | CompoundAssign (target : Expr) (op : CompoundOp) (value : Expr) (s : Span)
  | PreIncrement (e : Expr) (s : Span)
  | PreDecrement (e : Expr) (s : Span)
  | PostIncrement (e : Expr) (s : Span)
  | PostDecrement (e : Expr) (s : Span)
  | NullCoalesce (l : Expr) (r : Expr) (s : Span)
  | OptionalChain (obj : Expr) (field : String) (s : Span)
  | TrailingClosure (callee : Expr) (body : Block) (s : Span)
  | Nil (s : Span)
  | Await (e : Expr) (s : Span)

/-- Match arm (ast.rs, `MatchArm`). -/
inductive MatchArm where
  | mk (pattern : Pattern) (body : Expr) (span : Span)

/-- Let statement (ast.rs, `LetStmt`). -/
inductive LetStmt where
  | mk (name : String) (mutable : Bool) (ty : Option Ty) (init : Option Expr)
       (span : Span)

/-- Return statement (ast.rs, `ReturnStmt`). -/
inductive ReturnStmt where
  | mk (value : Option Expr) (span : Span)

/-- If statement (ast.rs, `IfStmt`). -/
inductive IfStmt where
  | mk (condition : Expr) (then_block : Block) (else_block : Option Block)
       (span : Span)

/-- While loop (ast.rs, `WhileStmt`). -/
inductive WhileStmt where
  | mk (condition : Expr) (body : Block) (span : Span)

/-- For loop (ast.rs, `ForStmt`). -/
inductive ForStmt where
  | mk (var : String) (iterable : Expr) (body : Block) (span : Span)

/-- Guard statement (ast.rs, `GuardStmt`). -/
inductive GuardStmt where
  | mk (condition : Expr) (else_block : Block) (span : Span)

/-- Defer statement (ast.rs, `DeferStmt`). -/
inductive DeferStmt where
  | mk (body : Block) (span : Span)

/-- Try-catch statement (ast.rs, `TryCatchStmt`). -/
inductive TryCatchStmt where
  | mk (try_block : Block) (catch_var : Option String) (catch_block : Block)
       (span : Span)

/-- Throw statement (ast.rs, `ThrowStmt`). -/
inductive ThrowStmt where
  | mk (value : Expr) (span : Span)

/-- Statements (ast.rs, `Stmt`). -/
inductive Stmt where
  | Let (l : LetStmt)
  | Expr (e : Expr)
  | Return (r : ReturnStmt)
  | If (i : IfStmt)
  | While (w : WhileStmt)
  | For (f : ForStmt)
  | Block (b : Block)
  | Break (s : Span)
  | Continue (s : Span)
  | Guard (g : GuardStmt)
  | Defer (d : DeferStmt)
  | TryCatch (t : TryCatchStmt)
  | Throw (t : ThrowStmt)

/-- A block of statements (ast.rs, `Block`). -/
inductive Block where
  | mk (statements : List Stmt) (span : Span)

end

def Block.statements : Block → List Stmt
  | .mk s _ => s

def Block.span : Block → Span
  | .mk _ s => s

def MatchArm.pattern : MatchArm → Pattern
  | .mk p _ _ => p

def MatchArm.body : MatchArm → Expr
  | .mk _ b _ => b

def LetStmt.name : LetStmt → String
  | .mk n _ _ _ _ => n

def LetStmt.mutable : LetStmt → Bool
  | .mk _ m _ _ _ => m

def LetStmt.ty : LetStmt → Option Ty
  | .mk _ _ t _ _ => t

def LetStmt.init : LetStmt → Option Expr
  | .mk _ _ _ i _ => i

def LetStmt.span : LetStmt → Span
  | .mk _ _ _ _ s => s

def ReturnStmt.value : ReturnStmt → Option Expr
  | .mk v _ => v

def ReturnStmt.span : ReturnStmt → Span
  | .mk _ s => s

def IfStmt.condition : IfStmt → Expr
  | .mk c _ _ _ => c

def IfStmt.then_block : IfStmt → Block
  | .mk _ t _ _ => t

def IfStmt.else_block : IfStmt → Option Block
  | .mk _ _ e _ => e

def IfStmt.span : IfStmt → Span
  | .mk _ _ _ s => s

def WhileStmt.condition : WhileStmt → Expr
  | .mk c _ _ => c

def WhileStmt.body : WhileStmt → Block
  | .mk _ b _ => b

def WhileStmt.span : WhileStmt → Span
  | .mk _ _ s => s

def ForStmt.var : ForStmt → String
  | .mk v _ _ _ => v

def ForStmt.iterable : ForStmt → Expr
  | .mk _ i _ _ => i

def ForStmt.body : ForStmt → Block
  | .mk _ _ b _ => b

def ForStmt.span : ForStmt → Span
  | .mk _ _ _ s => s

def GuardStmt.condition : GuardStmt → Expr
  | .mk c _ _ => c

def GuardStmt.else_block : GuardStmt → Block
  | .mk _ b _ => b

def GuardStmt.span : GuardStmt → Span
  | .mk _ _ s => s

def DeferStmt.body : DeferStmt → Block
  | .mk b _ => b

def TryCatchStmt.try_block : TryCatchStmt → Block
  | .mk b _ _ _ => b

def TryCatchStmt.catch_var : TryCatchStmt → Option String
  | .mk _ v _ _ => v

def TryCatchStmt.catch_block : TryCatchStmt → Block
  | .mk _ _ b _ => b

def ThrowStmt.value : ThrowStmt → Expr
  | .mk v _ => v

/-- Function parameter (ast.rs, `Param`). -/
structure Param where
  name : String
  ty : Ty
  span : Span

/-- Function declaration (ast.rs, `FnDecl`).  The Rust parser never fills
`is_async`; the embedding sets it to `false` at construction. -/
structure FnDecl where
  name : String
  params : List Param
  return_type : Option Ty
  body : Block
  is_async : Bool
  span : Span

/-- Struct field (ast.rs, `Field`). -/
structure Field where
  name : String
  ty : Ty
  span : Span

/-- Struct declaration (ast.rs, `StructDecl`). -/
structure StructDecl where
  name : String
  fields : List Field
  span : Span

/-- Import declaration (ast.rs, `ImportDecl`). -/
structure ImportDecl where
  path : List String
  span : Span

/-- Extern function declaration (ast.rs, `ExternDecl`). -/
structure ExternDecl where
  name : String
  params : List Param
  return_type : Option Ty
  is_async : Bool
  span : Span

/-- Top-level declarations (ast.rs, `Decl`); `Decl::Extern` is `ExternFn`. -/
inductive Decl where
  | Function (f : FnDecl)
  | Struct (s : StructDecl)
  | Import (i : ImportDecl)
  | ExternFn (e : ExternDecl)

/-- A complete program (ast.rs, `Program`). -/
structure Program where
  declarations : List Decl

/-- Convenience alias (parser/mod.rs, `pub type Ast = Program`). -/
abbrev Ast := Program

/-! ## Parser (parser/mod.rs)

The Rust `Parser` keeps a token slice and a cursor; `check`/`consume`
compare `std::mem::discriminant` of kinds, i.e. the constructor ignoring
payloads.  Every parsing function takes fuel and decrements it on entry so
that the whole mutually recursive family is structurally recursive; the
out-of-fuel fallback is unreachable for the fuel supplied at the top
level. -/

/-- Parser error (parser/mod.rs, `ParseError`). -/
structure ParseError where
  message : String
  span : Span

/-- Parser cursor state (parser/mod.rs, `Parser`). -/
structure ParseState where
  tokens : List Token
  current : Nat

/-- Current token (`Parser::peek`): the token at the cursor, or the last
token of the stream (the token streams produced by `tokenize` always end in
`Eof` and are never empty; the empty-stream default is arbitrary). -/
def ParseState.peekTok (p : ParseState) : Token :=
  (p.tokens[p.current]?).getD ((p.tokens.getLast?).getD (Token.eof 0))

/-- `Parser::is_at_end`. -/
def ParseState.isAtEnd (p : ParseState) : Bool :=
  kindIsEof p.peekTok.kind

/-- Cursor movement of `Parser::advance`: the cursor moves unless it rests
on `Eof`. -/
def ParseState.bump (p : ParseState) : ParseState :=
  if p.isAtEnd then p else { p with current := p.current + 1 }

/-- The previously consumed token, `self.tokens.get(self.current - 1)`
(used by the Rust code to recover the operator after `match_token`). -/
def ParseState.prevTok (p : ParseState) : Token :=
  (p.tokens[p.current - 1]?).getD (Token.eof 0)

/-- `Parser::check`: discriminant comparison with the peeked kind. -/
def ParseState.checkTok (p : ParseState) (kind : TokenKind) : Bool :=
  p.peekTok.kind.discr = kind.discr

/-- `Parser::match_token`: advance past the token if its kind matches one
of the given kinds. -/
def ParseState.matchToken (p : ParseState) (kinds : List TokenKind) :
    Bool × ParseState :=
  if kinds.any (fun k => p.checkTok k) then (true, p.bump) else (false, p)

/-- `Parser::consume`: require a kind, returning the consumed token. -/
def ParseState.consumeTok (p : ParseState) (kind : TokenKind) (msg : String) :
    Except ParseError (Token × ParseState) :=
  if p.checkTok kind then .ok (p.peekTok, p.bump)
  else .error ⟨msg, p.peekTok.span⟩

/-- Out-of-fuel fallback for the parser; unreachable for the fuel supplied
by the top-level entry points. -/
def outOfFuelP (p : ParseState) : Except ParseError (α × ParseState) :=
  .error ⟨"out of fuel", p.peekTok.span⟩

/-- `Parser::parse_identifier`. -/
def parse_identifier (p : ParseState) : Except ParseError (String × ParseState) :=
  match p.peekTok.kind with
  | .Ident name => .ok (name, p.bump)
  | _ => .error ⟨"expected identifier", p.peekTok.span⟩

/-- `Parser::parse_type`: primitive keyword, named type, or array type. -/
def parse_type : Nat → ParseState → Except ParseError (Ty × ParseState)
  | 0, p => outOfFuelP p
  | fuel + 1, p =>
    match p.peekTok.kind with
    | .Int => .ok (.Int, p.bump)
    | .Float => .ok (.Float, p.bump)
    | .String => .ok (.String, p.bump)
    | .Bool => .ok (.Bool, p.bump)
    | .Void => .ok (.Void, p.bump)
    | .Ident name => .ok (.Named name, p.bump)
    | .LBracket => do
      let (inner, p1) ← parse_type fuel p.bump
      let (_, p2) ← p1.consumeTok .RBracket "expected closing bracket"
      .ok (.Array inner, p2)
    | _ => .error ⟨"expected type", p.peekTok.span⟩

/-- `Parser::parse_param`. -/
def parse_param (fuel : Nat) (p : ParseState) :
    Except ParseError (Param × ParseState) := do
  let span := p.peekTok.span
  let (name, p1) ← parse_identifier p
  let (_, p2) ← p1.consumeTok .Colon "expected colon after parameter name"
  let (ty, p3) ← parse_type fuel p2
  .ok (⟨name, ty, span⟩, p3)

/-- The comma-separated loop of `Parser::parse_param_list`. -/
def parse_paramsLoop : Nat → ParseState → List Param →
    Except ParseError (List Param × ParseState)
  | 0, p, _ => outOfFuelP p
  | fuel + 1, p, acc => do
    let (prm, p1) ← parse_param fuel p
    let (matched, p2) := p1.matchToken [.Comma]
    if matched then parse_paramsLoop fuel p2 (acc ++ [prm])
    else .ok (acc ++ [prm], p2)

/-- `Parser::parse_param_list`. -/
def parse_param_list (fuel : Nat) (p : ParseState) :
    Except ParseError (List Param × ParseState) :=
  if p.checkTok .RParen then .ok ([], p)
  else parse_paramsLoop fuel p []

/-- `Parser::parse_field`. -/
def parse_field (fuel : Nat) (p : ParseState) :
    Except ParseError (Field × ParseState) := do
  let span := p.peekTok.span
  let (name, p1) ← parse_identifier p
  let (_, p2) ← p1.consumeTok .Colon "expected colon after field name"
  let (ty, p3) ← parse_type fuel p2
  .ok (⟨name, ty, span⟩, p3)

/-- The field loop of `Parser::parse_struct_decl`. -/
def parse_fieldsLoop : Nat → ParseState → List Field →
    Except ParseError (List Field × ParseState)
  | 0, p, _ => outOfFuelP p
  | fuel + 1, p, acc =>
    if !p.checkTok .RBrace ∧ !p.isAtEnd then do
      let (f, p1) ← parse_field fuel p
      let (matched, p2) := p1.matchToken [.Comma]
      if matched then parse_fieldsLoop fuel p2 (acc ++ [f])
      else .ok (acc ++ [f], p2)
    else .ok (acc, p)

/-- `Parser::parse_struct_decl`. -/
def parse_struct_decl (fuel : Nat) (p : ParseState) :
    Except ParseError (StructDecl × ParseState) := do
  let start_span := p.peekTok.span
  let (_, p1) ← p.consumeTok .Struct "expected struct"
  let (name, p2) ← parse_identifier p1
  let (_, p3) ← p2.consumeTok .LBrace "expected opening brace"
  let (fields, p4) ← parse_fieldsLoop fuel p3 []
  let (_, p5) ← p4.consumeTok .RBrace "expected closing brace"
  .ok (⟨name, fields, start_span⟩, p5)

/-- The `::`-separated path loop of `Parser::parse_import_decl`. -/
def parse_importPathLoop : Nat → ParseState → List String →
    Except ParseError (List String × ParseState)
  | 0, p, _ => outOfFuelP p
  | fuel + 1, p, acc => do
    let (matched, p1) := p.matchToken [.Colon]
    if matched then do
      let (_, p2) ← p1.consumeTok .Colon "expected double colon"
      let (seg, p3) ← parse_identifier p2
      parse_importPathLoop fuel p3 (acc ++ [seg])
    else .ok (acc, p)

/-- `Parser::parse_import_decl`. -/
def parse_import_decl (fuel : Nat) (p : ParseState) :
    Except ParseError (ImportDecl × ParseState) := do
  let span := p.peekTok.span
  let (_, p1) ← p.consumeTok .Import "expected import"
  let (seg, p2) ← parse_identifier p1
  let (path, p3) ← parse_importPathLoop fuel p2 [seg]
  let (_, p4) ← p3.consumeTok .Semicolon "expected semicolon after import"
  .ok (⟨path, span⟩, p4)

/-- `Parser::parse_extern_decl`. -/
def parse_extern_decl (fuel : Nat) (p : ParseState) :
    Except ParseError (ExternDecl × ParseState) := do
  let span := p.peekTok.span
  let (_, p1) ← p.consumeTok .ExternKw "expected extern"
  let (_, p2) ← p1.consumeTok .Fn "expected fn after extern"
  let (name, p3) ← parse_identifier p2
  let (_, p4) ← p3.consumeTok .LParen "expected opening paren"
  let (params, p5) ← parse_param_list fuel p4
  let (_, p6) ← p5.consumeTok .RParen "expected closing paren"
  let (matched, p7) := p6.matchToken [.Arrow]
  let (return_type, p8) ←
    if matched then do
      let (t, pn) ← parse_type fuel p7
      pure (some t, pn)
    else pure (none, p7)
  let (_, p9) ← p8.consumeTok .Semicolon "expected semicolon"
  .ok (⟨name, params, return_type, false, span⟩, p9)

/-- `Parser::parse_pattern`: literal, identifier (with `_` as wildcard). -/
def parse_pattern (p : ParseState) : Except ParseError (Pattern × ParseState) :=
  let token := p.peekTok
  match token.kind with
  | .IntLit n => .ok (.Literal (.Int n token.span), p.bump)
  | .StringLit s => .ok (.Literal (.String s token.span), p.bump)
  | .True => .ok (.Literal (.Bool true token.span), p.bump)
  | .False => .ok (.Literal (.Bool false token.span), p.bump)
  | .Ident name =>
    if name = "_" then .ok (.Wildcard, p.bump)
    else .ok (.Identifier name, p.bump)
  | _ => .error ⟨"expected pattern", token.span⟩

mutual

/-- The declaration loop of `Parser::parse_program`. -/
def parse_declsLoop : Nat → ParseState → List Decl →
    Except ParseError (List Decl × ParseState)
  | 0, p, _ => outOfFuelP p
  | fuel + 1, p, acc =>
    if p.isAtEnd then .ok (acc, p)
    else do
      let (d, p1) ← parse_declaration fuel p
      parse_declsLoop fuel p1 (acc ++ [d])

/-- `Parser::parse_declaration`: dispatch on the leading token. -/
def parse_declaration : Nat → ParseState → Except ParseError (Decl × ParseState)
  | 0, p => outOfFuelP p
  | fuel + 1, p =>
    match p.peekTok.kind with
    | .Fn => do
      let (f, p1) ← parse_fn_decl fuel p
      .ok (.Function f, p1)
    | .Struct => do
      let (s, p1) ← parse_struct_decl fuel p
      .ok (.Struct s, p1)
    | .Import => do
      let (i, p1) ← parse_import_decl fuel p
      .ok (.Import i, p1)
    | .ExternKw => do
      let (e, p1) ← parse_extern_decl fuel p
      .ok (.ExternFn e, p1)
    | _ => .error ⟨"expected declaration", p.peekTok.span⟩

/-- `Parser::parse_fn_decl`. -/
def parse_fn_decl : Nat → ParseState → Except ParseError (FnDecl × ParseState)
  | 0, p => outOfFuelP p
  | fuel + 1, p => do
    let start_span := p.peekTok.span
    let (_, p1) ← p.consumeTok .Fn "expected fn"
    let (name, p2) ← parse_identifier p1
    let (_, p3) ← p2.consumeTok .LParen "expected opening paren after function name"
    let (params, p4) ← parse_param_list fuel p3
    let (_, p5) ← p4.consumeTok .RParen "expected closing paren after parameters"
    let (matched, p6) := p5.matchToken [.Arrow]
    let (return_type, p7) ←
      if matched then do
        let (t, pn) ← parse_type fuel p6
        pure (some t, pn)
      else pure (none, p6)
    let (body, p8) ← parse_block fuel p7
    .ok (⟨name, params, return_type, body, false, start_span⟩, p8)

/-- `Parser::parse_block`. -/
def parse_block : Nat → ParseState → Except ParseError (Block × ParseState)
  | 0, p => outOfFuelP p
  | fuel + 1, p => do
    let span := p.peekTok.span
    let (_, p1) ← p.consumeTok .LBrace "expected opening brace"
    let (stmts, p2) ← parse_stmtsLoop fuel p1 []
    let (_, p3) ← p2.consumeTok .RBrace "expected closing brace"
    .ok (.mk stmts span, p3)

/-- The statement loop of `Parser::parse_block`. -/
def parse_stmtsLoop : Nat → ParseState → List Stmt →
    Except ParseError (List Stmt × ParseState)
  | 0, p, _ => outOfFuelP p
  | fuel + 1, p, acc =>
    if !p.checkTok .RBrace ∧ !p.isAtEnd then do
      let (s, p1) ← parse_statement fuel p
      parse_stmtsLoop fuel p1 (acc ++ [s])
    else .ok (acc, p)

/-- `Parser::parse_statement`: dispatch on the leading token. -/
def parse_statement : Nat → ParseState → Except ParseError (Stmt × ParseState)
  | 0, p => outOfFuelP p
  | fuel + 1, p =>
    match p.peekTok.kind with
    | .Let => parse_let_stmt fuel p
    | .Return => parse_return_stmt fuel p
    | .If => parse_if_stmt fuel p
    | .While => parse_while_stmt fuel p
    | .For => parse_for_stmt fuel p
    | .LBrace => do
      let (b, p1) ← parse_block fuel p
      .ok (.Block b, p1)
    | .Guard => parse_guard_stmt fuel p
    | .Defer => parse_defer_stmt fuel p
    | .Try => parse_try_catch_stmt fuel p
    | .Throw => parse_throw_stmt fuel p
    | _ => parse_expr_stmt fuel p

/-- `Parser::parse_let_stmt`. -/
def parse_let_stmt : Nat → ParseState → Except ParseError (Stmt × ParseState)
  | 0, p => outOfFuelP p
  | fuel + 1, p => do
    let span := p.peekTok.span
    let (_, p1) ← p.consumeTok .Let "expected let"
    let (mutable, p2) := p1.matchToken [.Mut]
    let (name, p3) ← parse_identifier p2
    let (matched, p4) := p3.matchToken [.Colon]
    let (ty, p5) ←
      if matched then do
        let (t, pn) ← parse_type fuel p4
        pure (some t, pn)
      else pure (none, p4)
    let (matchedEq, p6) := p5.matchToken [.Eq]
    let (init, p7) ←
      if matchedEq then do
        let (e, pn) ← parse_expression fuel p6
        pure (some e, pn)
      else pure (none, p6)
    let (_, p8) ← p7.consumeTok .Semicolon "expected semicolon after variable declaration"
    .ok (.Let (.mk name mutable ty init span), p8)

/-- `Parser::parse_return_stmt`. -/
def parse_return_stmt : Nat → ParseState → Except ParseError (Stmt × ParseState)
  | 0, p => outOfFuelP p
  | fuel + 1, p => do
    let span := p.peekTok.span
    let (_, p1) ← p.consumeTok .Return "expected return"
    let (value, p2) ←
      if !p1.checkTok .Semicolon then do
        let (e, pn) ← parse_expression fuel p1
        pure (some e, pn)
      else pure (none, p1)
    let (_, p3) ← p2.consumeTok .Semicolon "expected semicolon after return"
    .ok (.Return (.mk value span), p3)

/-- `Parser::parse_if_stmt`. -/
def parse_if_stmt : Nat → ParseState → Except ParseError (Stmt × ParseState)
  | 0, p => outOfFuelP p
  | fuel + 1, p => do
    let span := p.peekTok.span
    let (_, p1) ← p.consumeTok .If "expected if"
    let (condition, p2) ← parse_expression fuel p1
    let (then_block, p3) ← parse_block fuel p2
    let (matched, p4) := p3.matchToken [.Else]
    let (else_block, p5) ←
      if matched then do
        let (b, pn) ← parse_block fuel p4
        pure (some b, pn)
      else pure (none, p4)
    .ok (.If (.mk condition then_block else_block span), p5)

/-- `Parser::parse_while_stmt`. -/
def parse_while_stmt : Nat → ParseState → Except ParseError (Stmt × ParseState)
  | 0, p => outOfFuelP p
  | fuel + 1, p => do
    let span := p.peekTok.span
    let (_, p1) ← p.consumeTok .While "expected while"
    let (condition, p2) ← parse_expression fuel p1
    let (body, p3) ← parse_block fuel p2
    .ok (.While (.mk condition body span), p3)

/-- `Parser::parse_for_stmt`. -/
def parse_for_stmt : Nat → ParseState → Except ParseError (Stmt × ParseState)
  | 0, p => outOfFuelP p
  | fuel + 1, p => do
    let span := p.peekTok.span
    let (_, p1) ← p.consumeTok .For "expected for"
    let (var, p2) ← parse_identifier p1
    let (_, p3) ← p2.consumeTok .In "expected in"
    let (iterable, p4) ← parse_expression fuel p3
    let (body, p5) ← parse_block fuel p4
    .ok (.For (.mk var iterable body span), p5)

/-- `Parser::parse_expr_stmt`. -/
def parse_expr_stmt : Nat → ParseState → Except ParseError (Stmt × ParseState)
  | 0, p => outOfFuelP p
  | fuel + 1, p => do
    let (e, p1) ← parse_expression fuel p
    let (_, p2) ← p1.consumeTok .Semicolon "expected semicolon after expression"
    .ok (.Expr e, p2)

/-- `Parser::parse_guard_stmt`. -/
def parse_guard_stmt : Nat → ParseState → Except ParseError (Stmt × ParseState)
  | 0, p => outOfFuelP p
  | fuel + 1, p => do
    let span := p.peekTok.span
    let (_, p1) ← p.consumeTok .Guard "expected guard"
    let (condition, p2) ← parse_expression fuel p1
    let (_, p3) ← p2.consumeTok .Else "expected else after guard condition"
    let (else_block, p4) ← parse_block fuel p3
    .ok (.Guard (.mk condition else_block span), p4)

/-- `Parser::parse_defer_stmt`. -/
def parse_defer_stmt : Nat → ParseState → Except ParseError (Stmt × ParseState)
  | 0, p => outOfFuelP p
  | fuel + 1, p => do
    let span := p.peekTok.span
    let (_, p1) ← p.consumeTok .Defer "expected defer"
    let (body, p2) ← parse_block fuel p1
    .ok (.Defer (.mk body span), p2)

/-- `Parser::parse_try_catch_stmt`. -/
def parse_try_catch_stmt : Nat → ParseState → Except ParseError (Stmt × ParseState)
  | 0, p => outOfFuelP p
  | fuel + 1, p => do
    let span := p.peekTok.span
    let (_, p1) ← p.consumeTok .Try "expected try"
    let (try_block, p2) ← parse_block fuel p1
    let (_, p3) ← p2.consumeTok .Catch "expected catch"
    let (catch_var, p4) ←
      match p3.peekTok.kind with
      | .Ident _ => do
        let (n, pn) ← parse_identifier p3
        pure (some n, pn)
      | _ => pure (none, p3)
    let (catch_block, p5) ← parse_block fuel p4
    .ok (.TryCatch (.mk try_block catch_var catch_block span), p5)

/-- `Parser::parse_throw_stmt`. -/
def parse_throw_stmt : Nat → ParseState → Except ParseError (Stmt × ParseState)
  | 0, p => outOfFuelP p
  | fuel + 1, p => do
    let span := p.peekTok.span
    let (_, p1) ← p.consumeTok .Throw "expected throw"
    let (value, p2) ← parse_expression fuel p1
    let (_, p3) ← p2.consumeTok .Semicolon "expected semicolon after throw"
    .ok (.Throw (.mk value span), p3)

/-- `Parser::parse_expression`: entry of the Pratt cascade. -/
def parse_expression : Nat → ParseState → Except ParseError (Expr × ParseState)
  | 0, p => outOfFuelP p
  | fuel + 1, p => parse_assignment fuel p

/-- `Parser::parse_assignment`: right-associative assignment and compound
assignment. -/
def parse_assignment : Nat → ParseState → Except ParseError (Expr × ParseState)
  | 0, p => outOfFuelP p
  | fuel + 1, p => do
    let (e, p1) ← parse_nullish_coalesce fuel p
    let (matched, p2) := p1.matchToken [.Eq]
    if matched then do
      let span := p2.peekTok.span
      let (value, p3) ← parse_assignment fuel p2
      .ok (.Assign e value span, p3)
    else
      let (matchedC, p3) := p1.matchToken
        [.PlusEq, .MinusEq, .StarEq, .SlashEq, .PercentEq]
      if matchedC then do
        let op :=
          match p3.prevTok.kind with
          | .PlusEq => CompoundOp.AddEq
          | .MinusEq => CompoundOp.SubEq
          | .StarEq => CompoundOp.MulEq
          | .SlashEq => CompoundOp.DivEq
          | _ => CompoundOp.ModEq
        let span := p3.peekTok.span
        let (value, p4) ← parse_assignment fuel p3
        .ok (.CompoundAssign e op value span, p4)
      else .ok (e, p1)

/-- `Parser::parse_nullish_coalesce`. -/
def parse_nullish_coalesce : Nat → ParseState → Except ParseError (Expr × ParseState)
  | 0, p => outOfFuelP p
  | fuel + 1, p => do
    let (left, p1) ← parse_or fuel p
    parse_nullishLoop fuel left p1

def parse_nullishLoop : Nat → Expr → ParseState → Except ParseError (Expr × ParseState)
  | 0, _, p => outOfFuelP p
  | fuel + 1, left, p => do
    let (matched, p1) := p.matchToken [.QuestionQuestion]
    if matched then do
      let span := p1.peekTok.span
      let (right, p2) ← parse_or fuel p1
      parse_nullishLoop fuel (.NullCoalesce left right span) p2
    else .ok (left, p)

/-- `Parser::parse_or`. -/
def parse_or : Nat → ParseState → Except ParseError (Expr × ParseState)
  | 0, p => outOfFuelP p
  | fuel + 1, p => do
    let (left, p1) ← parse_and fuel p
    parse_orLoop fuel left p1

def parse_orLoop : Nat → Expr → ParseState → Except ParseError (Expr × ParseState)
  | 0, _, p => outOfFuelP p
  | fuel + 1, left, p => do
    let (matched, p1) := p.matchToken [.Or]
    if matched then do
      let span := p1.peekTok.span
      let (right, p2) ← parse_and fuel p1
      parse_orLoop fuel (.Binary left .Or right span) p2
    else .ok (left, p)

/-- `Parser::parse_and`. -/
def parse_and : Nat → ParseState → Except ParseError (Expr × ParseState)
  | 0, p => outOfFuelP p
  | fuel + 1, p => do
    let (left, p1) ← parse_bitwise_or fuel p
    parse_andLoop fuel left p1

def parse_andLoop : Nat → Expr → ParseState → Except ParseError (Expr × ParseState)
  | 0, _, p => outOfFuelP p
  | fuel + 1, left, p => do
    let (matched, p1) := p.matchToken [.And]
    if matched then do
      let span := p1.peekTok.span
      let (right, p2) ← parse_bitwise_or fuel p1
      parse_andLoop fuel (.Binary left .And right span) p2
    else .ok (left, p)

/-- `Parser::parse_bitwise_or`. -/
def parse_bitwise_or : Nat → ParseState → Except ParseError (Expr × ParseState)
  | 0, p => outOfFuelP p
  | fuel + 1, p => do
    let (left, p1) ← parse_bitwise_xor fuel p
    parse_bitwiseOrLoop fuel left p1

def parse_bitwiseOrLoop : Nat → Expr → ParseState → Except ParseError (Expr × ParseState)
  | 0, _, p => outOfFuelP p
  | fuel + 1, left, p => do
    let (matched, p1) := p.matchToken [.BitwiseOr]
    if matched then do
      let span := p1.peekTok.span
      let (right, p2) ← parse_bitwise_xor fuel p1
      parse_bitwiseOrLoop fuel (.Binary left .BitwiseOr right span) p2
    else .ok (left, p)

/-- `Parser::parse_bitwise_xor`. -/
def parse_bitwise_xor : Nat → ParseState → Except ParseError (Expr × ParseState)
  | 0, p => outOfFuelP p
  | fuel + 1, p => do
    let (left, p1) ← parse_bitwise_and fuel p
    parse_bitwiseXorLoop fuel left p1

def parse_bitwiseXorLoop : Nat → Expr → ParseState → Except ParseError (Expr × ParseState)
  | 0, _, p => outOfFuelP p
  | fuel + 1, left, p => do
    let (matched, p1) := p.matchToken [.BitwiseXor]
    if matched then do
      let span := p1.peekTok.span
      let (right, p2) ← parse_bitwise_and fuel p1
      parse_bitwiseXorLoop fuel (.Binary left .BitwiseXor right span) p2
    else .ok (left, p)

/-- `Parser::parse_bitwise_and`. -/
def parse_bitwise_and : Nat → ParseState → Except ParseError (Expr × ParseState)
  | 0, p => outOfFuelP p
  | fuel + 1, p => do
    let (left, p1) ← parse_equality fuel p
    parse_bitwiseAndLoop fuel left p1

def parse_bitwiseAndLoop : Nat → Expr → ParseState → Except ParseError (Expr × ParseState)
  | 0, _, p => outOfFuelP p
  | fuel + 1, left, p => do
    let (matched, p1) := p.matchToken [.BitwiseAnd]
    if matched then do
      let span := p1.peekTok.span
      let (right, p2) ← parse_equality fuel p1
      parse_bitwiseAndLoop fuel (.Binary left .BitwiseAnd right span) p2
    else .ok (left, p)

/-- `Parser::parse_equality`. -/
def parse_equality : Nat → ParseState → Except ParseError (Expr × ParseState)
  | 0, p => outOfFuelP p
  | fuel + 1, p => do
    let (left, p1) ← parse_comparison fuel p
    parse_equalityLoop fuel left p1

def parse_equalityLoop : Nat → Expr → ParseState → Except ParseError (Expr × ParseState)
  | 0, _, p => outOfFuelP p
  | fuel + 1, left, p => do
    let (matched, p1) := p.matchToken [.EqEq, .BangEq]
    if matched then do
      let op := match p1.prevTok.kind with
        | .EqEq => BinOp.Eq
        | _ => BinOp.Ne
      let span := p1.peekTok.span
      let (right, p2) ← parse_comparison fuel p1
      parse_equalityLoop fuel (.Binary left op right span) p2
    else .ok (left, p)

/-- `Parser::parse_comparison`. -/
def parse_comparison : Nat → ParseState → Except ParseError (Expr × ParseState)
  | 0, p => outOfFuelP p
  | fuel + 1, p => do
    let (left, p1) ← parse_shift fuel p
    parse_comparisonLoop fuel left p1

def parse_comparisonLoop : Nat → Expr → ParseState → Except ParseError (Expr × ParseState)
  | 0, _, p => outOfFuelP p
  | fuel + 1, left, p => do
    let (matched, p1) := p.matchToken [.Lt, .Gt, .LtEq, .GtEq]
    if matched then do
      let op := match p1.prevTok.kind with
        | .Lt => BinOp.Lt
        | .Gt => BinOp.Gt
        | .LtEq => BinOp.Le
        | _ => BinOp.Ge
      let span := p1.peekTok.span
      let (right, p2) ← parse_shift fuel p1
      parse_comparisonLoop fuel (.Binary left op right span) p2
    else .ok (left, p)

/-- `Parser::parse_shift`. -/
def parse_shift : Nat → ParseState → Except ParseError (Expr × ParseState)
  | 0, p => outOfFuelP p
  | fuel + 1, p => do
    let (left, p1) ← parse_term fuel p
    parse_shiftLoop fuel left p1

def parse_shiftLoop : Nat → Expr → ParseState → Except ParseError (Expr × ParseState)
  | 0, _, p => outOfFuelP p
  | fuel + 1, left, p => do
    let (matched, p1) := p.matchToken [.ShiftLeft, .ShiftRight]
    if matched then do
      let op := match p1.prevTok.kind with
        | .ShiftLeft => BinOp.ShiftLeft
        | _ => BinOp.ShiftRight
      let span := p1.peekTok.span
      let (right, p2) ← parse_term fuel p1
      parse_shiftLoop fuel (.Binary left op right span) p2
    else .ok (left, p)

/-- `Parser::parse_term`: additive level. -/
def parse_term : Nat → ParseState → Except ParseError (Expr × ParseState)
  | 0, p => outOfFuelP p
  | fuel + 1, p => do
    let (left, p1) ← parse_factor fuel p
    parse_termLoop fuel left p1

def parse_termLoop : Nat → Expr → ParseState → Except ParseError (Expr × ParseState)
  | 0, _, p => outOfFuelP p
  | fuel + 1, left, p => do
    let (matched, p1) := p.matchToken [.Plus, .Minus]
    if matched then do
      let op := match p1.prevTok.kind with
        | .Plus => BinOp.Add
        | _ => BinOp.Sub
      let span := p1.peekTok.span
      let (right, p2) ← parse_factor fuel p1
      parse_termLoop fuel (.Binary left op right span) p2
    else .ok (left, p)

/-- `Parser::parse_factor`: multiplicative level. -/
def parse_factor : Nat → ParseState → Except ParseError (Expr × ParseState)
  | 0, p => outOfFuelP p
  | fuel + 1, p => do
    let (left, p1) ← parse_unary fuel p
    parse_factorLoop fuel left p1

def parse_factorLoop : Nat → Expr → ParseState → Except ParseError (Expr × ParseState)
  | 0, _, p => outOfFuelP p
  | fuel + 1, left, p => do
    let (matched, p1) := p.matchToken [.Star, .Slash, .Percent]
    if matched then do
      let op := match p1.prevTok.kind with
        | .Star => BinOp.Mul
        | .Slash => BinOp.Div
        | _ => BinOp.Mod
      let span := p1.peekTok.span
      let (right, p2) ← parse_unary fuel p1
      parse_factorLoop fuel (.Binary left op right span) p2
    else .ok (left, p)

/-- `Parser::parse_unary`: pre-increment/decrement and prefix operators. -/
def parse_unary : Nat → ParseState → Except ParseError (Expr × ParseState)
  | 0, p => outOfFuelP p
  | fuel + 1, p => do
    let (matchedInc, p1) := p.matchToken [.PlusPlus]
    if matchedInc then do
      let span := p1.peekTok.span
      let (operand, p2) ← parse_unary fuel p1
      .ok (.PreIncrement operand span, p2)
    else
      let (matchedDec, p2) := p.matchToken [.MinusMinus]
      if matchedDec then do
        let span := p2.peekTok.span
        let (operand, p3) ← parse_unary fuel p2
        .ok (.PreDecrement operand span, p3)
      else
        let (matchedUn, p3) := p.matchToken [.Minus, .Bang, .BitwiseNot]
        if matchedUn then do
          let op := match p3.prevTok.kind with
            | .Minus => UnaryOp.Neg
            | .Bang => UnaryOp.Not
            | _ => UnaryOp.BitwiseNot
          let span := p3.peekTok.span
          let (right, p4) ← parse_unary fuel p3
          .ok (.Unary op right span, p4)
        else parse_postfix fuel p

/-- `Parser::parse_postfix`: post-increment/decrement loop. -/
def parse_postfix : Nat → ParseState → Except ParseError (Expr × ParseState)
  | 0, p => outOfFuelP p
  | fuel + 1, p => do
    let (e, p1) ← parse_call fuel p
    parse_postfixLoop fuel e p1

def parse_postfixLoop : Nat → Expr → ParseState → Except ParseError (Expr × ParseState)
  | 0, _, p => outOfFuelP p
  | fuel + 1, e, p => do
    let (matchedInc, p1) := p.matchToken [.PlusPlus]
    if matchedInc then
      parse_postfixLoop fuel (.PostIncrement e p1.peekTok.span) p1
    else
      let (matchedDec, p2) := p.matchToken [.MinusMinus]
      if matchedDec then
        parse_postfixLoop fuel (.PostDecrement e p2.peekTok.span) p2
      else .ok (e, p)

/-- `Parser::parse_call`: postfix chain of calls, member accesses, optional
chains and index expressions. -/
def parse_call : Nat → ParseState → Except ParseError (Expr × ParseState)
  | 0, p => outOfFuelP p
  | fuel + 1, p => do
    let (e, p1) ← parse_primary fuel p
    parse_callLoop fuel e p1

def parse_callLoop : Nat → Expr → ParseState → Except ParseError (Expr × ParseState)
  | 0, _, p => outOfFuelP p
  | fuel + 1, e, p => do
    let (matchedParen, p1) := p.matchToken [.LParen]
    if matchedParen then do
      let span := p1.peekTok.span
      let (args, p2) ← parse_arg_list fuel p1
      let (_, p3) ← p2.consumeTok .RParen "expected closing paren after arguments"
      parse_callLoop fuel (.Call e args span) p3
    else
      let (matchedDot, p2) := p.matchToken [.Dot]
      if matchedDot then do
        let span := p2.peekTok.span
        let (name, p3) ← parse_identifier p2
        parse_callLoop fuel (.Member e name span) p3
      else
        let (matchedQDot, p3) := p.matchToken [.QuestionDot]
        if matchedQDot then do
          let span := p3.peekTok.span
          let (name, p4) ← parse_identifier p3
          parse_callLoop fuel (.OptionalChain e name span) p4
        else
          let (matchedBracket, p4) := p.matchToken [.LBracket]
          if matchedBracket then do
            let span := p4.peekTok.span
            let (index, p5) ← parse_expression fuel p4
            let (_, p6) ← p5.consumeTok .RBracket "expected closing bracket"
            parse_callLoop fuel (.Index e index span) p6
          else .ok (e, p)

/-- `Parser::parse_arg_list`. -/
def parse_arg_list : Nat → ParseState → Except ParseError (List Expr × ParseState)
  | 0, p => outOfFuelP p
  | fuel + 1, p =>
    if !p.checkTok .RParen then parse_argsLoop fuel p []
    else .ok ([], p)

def parse_argsLoop : Nat → ParseState → List Expr →
    Except ParseError (List Expr × ParseState)
  | 0, p, _ => outOfFuelP p
  | fuel + 1, p, acc => do
    let (e, p1) ← parse_expression fuel p
    let (matched, p2) := p1.matchToken [.Comma]
    if matched then parse_argsLoop fuel p2 (acc ++ [e])
    else .ok (acc ++ [e], p2)

/-- The struct-literal field loop inside `Parser::parse_primary`. -/
def parse_structLitLoop : Nat → ParseState → List (String × Expr) →
    Except ParseError (List (String × Expr) × ParseState)
  | 0, p, _ => outOfFuelP p
  | fuel + 1, p, acc =>
    if !p.checkTok .RBrace ∧ !p.isAtEnd then do
      let (field_name, p1) ← parse_identifier p
      let (_, p2) ← p1.consumeTok .Colon "expected colon"
      let (value, p3) ← parse_expression fuel p2
      let (matched, p4) := p3.matchToken [.Comma]
      if matched then parse_structLitLoop fuel p4 (acc ++ [(field_name, value)])
      else .ok (acc ++ [(field_name, value)], p4)
    else .ok (acc, p)

/-- The array-element loop inside `Parser::parse_primary`. -/
def parse_arrayLitLoop : Nat → ParseState → List Expr →
    Except ParseError (List Expr × ParseState)
  | 0, p, _ => outOfFuelP p
  | fuel + 1, p, acc =>
    if !p.checkTok .RBracket ∧ !p.isAtEnd then do
      let (e, p1) ← parse_expression fuel p
      let (matched, p2) := p1.matchToken [.Comma]
      if matched then parse_arrayLitLoop fuel p2 (acc ++ [e])
      else .ok (acc ++ [e], p2)
    else .ok (acc, p)

/-- The arm loop inside the `match` branch of `Parser::parse_primary`. -/
def parse_matchArmsLoop : Nat → ParseState → List MatchArm →
    Except ParseError (List MatchArm × ParseState)
  | 0, p, _ => outOfFuelP p
  | fuel + 1, p, acc =>
    if !p.checkTok .RBrace ∧ !p.isAtEnd then do
      let (arm, p1) ← parse_match_arm fuel p
      let (_, p2) := p1.matchToken [.Comma]
      parse_matchArmsLoop fuel p2 (acc ++ [arm])
    else .ok (acc, p)

/-- `Parser::parse_match_arm`: a block body takes the expression of its
last statement as the arm value, nil otherwise. -/
def parse_match_arm : Nat → ParseState → Except ParseError (MatchArm × ParseState)
  | 0, p => outOfFuelP p
  | fuel + 1, p => do
    let span := p.peekTok.span
    let (pattern, p1) ← parse_pattern p
    let (_, p2) ← p1.consumeTok .FatArrow "expected fat arrow after pattern"
    if p2.checkTok .LBrace then do
      let (block, p3) ← parse_block fuel p2
      let body :=
        match block.statements.getLast? with
        | some (.Expr e) => e
        | _ => .Nil span
      .ok (.mk pattern body span, p3)
    else do
      let (body, p3) ← parse_expression fuel p2
      .ok (.mk pattern body span, p3)

/-- `Parser::parse_primary`: literals, identifiers and struct literals,
parenthesized expressions, array literals, nil, and match expressions. -/
def parse_primary : Nat → ParseState → Except ParseError (Expr × ParseState)
  | 0, p => outOfFuelP p
  | fuel + 1, p =>
    let token := p.peekTok
    match token.kind with
    | .IntLit n => .ok (.Literal (.Int n token.span), p.bump)
    | .FloatLit n => .ok (.Literal (.Float n token.span), p.bump)
    | .StringLit s => .ok (.Literal (.String s token.span), p.bump)
    | .True => .ok (.Literal (.Bool true token.span), p.bump)
    | .False => .ok (.Literal (.Bool false token.span), p.bump)
    | .Ident name =>
      let p1 := p.bump
      if p1.checkTok .LBrace then do
        let (fields, p2) ← parse_structLitLoop fuel p1.bump []
        let (_, p3) ← p2.consumeTok .RBrace "expected closing brace"
        .ok (.StructLit name fields token.span, p3)
      else .ok (.Identifier name token.span, p1)
    | .LParen => do
      let (e, p1) ← parse_expression fuel p.bump
      let (_, p2) ← p1.consumeTok .RParen "expected closing paren"
      .ok (e, p2)
    | .LBracket => do
      let (elements, p1) ← parse_arrayLitLoop fuel p.bump []
      let (_, p2) ← p1.consumeTok .RBracket "expected closing bracket"
      .ok (.ArrayLit elements token.span, p2)
    | .Nil => .ok (.Nil token.span, p.bump)
    | .Match => do
      let (scrutinee, p1) ← parse_expression fuel p.bump
      let (_, p2) ← p1.consumeTok .LBrace "expected opening brace after match expression"
      let (arms, p3) ← parse_matchArmsLoop fuel p2 []
      let (_, p4) ← p3.consumeTok .RBrace "expected closing brace after match arms"
      .ok (.Match scrutinee arms token.span, p4)
    | _ => .error ⟨"expected expression", token.span⟩

end

/-- `Parser::parse_program`: declarations until end of input. -/
def parse_program (fuel : Nat) (p : ParseState) :
    Except ParseError (Program × ParseState) := do
  let (declarations, p1) ← parse_declsLoop fuel p []
  .ok (⟨declarations⟩, p1)

/-- Top-level `parse` (parser/mod.rs): produce a program even on error, with
an empty declaration list, so later stages can still run. -/
def parse (tokens : List Token) : Program :=
  match parse_program (tokens.length * 64 + 64) ⟨tokens, 0⟩ with
  | .ok (program, _) => program
  | .error _ => ⟨[]⟩

/-! ## Type checker data model (typechecker/types.rs) -/

/-- Resolved types (types.rs, `ResolvedType`). -/
inductive ResolvedType where
  | Int
  | Float
  | String
  | Bool
  | Void
  | Struct (name : String)
  | Array (inner : ResolvedType)
  | Function (params : List ResolvedType) (ret : ResolvedType)
  | Unknown
  | Error

mutual

/-- Structural equality of resolved types, the Rust `#[derive(PartialEq)]`
comparison used by `is_assignable_from` and the checker. -/
def eqb : ResolvedType → ResolvedType → Bool
  | .Int, .Int => true
  | .Float, .Float => true
  | .String, .String => true
  | .Bool, .Bool => true
  | .Void, .Void => true
  | .Struct a, .Struct b => a = b
  | .Array a, .Array b => eqb a b
  | .Function p1 r1, .Function p2 r2 =>
    eqbList p1 p2 && eqb r1 r2
  | .Unknown, .Unknown => true
  | .Error, .Error => true
  | _, _ => false

def eqbList : List ResolvedType → List ResolvedType → Bool
  | [], [] => true
  | a :: as1, b :: bs1 => eqb a b && eqbList as1 bs1
  | _, _ => false

end

/-- Assignment compatibility (types.rs, `ResolvedType::is_assignable_from`):
equality, or widening from `Int` to `Float`. -/
def is_assignable_from (self other : ResolvedType) : Bool :=
  if eqb self other then true
  else
    match self, other with
    | .Float, .Int => true
    | _, _ => false

mutual

/-- Display name for error messages (types.rs,
`ResolvedType::display_name`); the quote decoration of the Rust format
strings is dropped. -/
def display_name : ResolvedType → String
  | .Int => "int"
  | .Float => "float"
  | .String => "string"
  | .Bool => "bool"
  | .Void => "void"
  | .Struct name => name
  | .Array inner => "[" ++ display_name inner ++ "]"
  | .Function params ret =>
    "fn(" ++ String.intercalate ", " (displayList params)
      ++ ") -> " ++ display_name ret
  | .Unknown => "<unknown>"
  | .Error => "<error>"

def displayList : List ResolvedType → List String
  | [] => []
  | t :: ts => display_name t :: displayList ts

end

/-- Conversion from the syntactic type (types.rs,
`ResolvedType::from_parser_type`). -/
def ResolvedType.from_parser_type : Ty → ResolvedType
  | .Int => .Int
  | .Float => .Float
  | .String => .String
  | .Bool => .Bool
  | .Void => .Void
  | .Named name => .Struct name
  | .Array inner => .Array (ResolvedType.from_parser_type inner)

/-- Kind of symbol (types.rs, `SymbolKind`). -/
inductive SymbolKind where
  | Variable
  | Function
  | Struct
  | Parameter
deriving DecidableEq

/-- Symbol-table entry (types.rs, `Symbol`). -/
structure Symbol where
  name : String
  ty : ResolvedType
  mutable : Bool
  kind : SymbolKind

/-- Struct definition info (types.rs, `StructInfo`); the Rust field map is
an association list here. -/
structure StructInfo where
  name : String
  fields : List (String × ResolvedType)

/-- One lexical scope: a name-to-symbol map (types.rs, `Scope`). -/
abbrev Scope := List (String × Symbol)

/-- Membership test of the association-list rendition of `HashMap`. -/
def assocContains (m : List (String × α)) (k : String) : Bool :=
  m.any (fun e => e.1 = k)

/-- Lookup in the association-list rendition of `HashMap`. -/
def assocGet (m : List (String × α)) (k : String) : Option α :=
  (m.find? (fun e => e.1 = k)).map (fun e => e.2)

/-- Insert-or-replace in the association-list rendition of `HashMap`. -/
def assocInsert (m : List (String × α)) (k : String) (v : α) : List (String × α) :=
  if assocContains m k then m.map (fun e => if e.1 = k then (k, v) else e)
  else m ++ [(k, v)]

/-- Symbol table (types.rs, `SymbolTable`): a stack of scopes (global scope
first, innermost scope last) plus the flat struct and function registries. -/
structure SymbolTable where
  scopes : List Scope
  structs : List (String × StructInfo)
  functions : List (String × ResolvedType)

/-- `SymbolTable::new`: a single empty global scope. -/
def SymbolTable.new : SymbolTable := ⟨[[]], [], []⟩

/-- `SymbolTable::push_scope`. -/
def SymbolTable.push_scope (t : SymbolTable) : SymbolTable :=
  { t with scopes := t.scopes ++ [[]] }

/-- `SymbolTable::pop_scope`: the global scope is never popped. -/
def SymbolTable.pop_scope (t : SymbolTable) : SymbolTable :=
  if t.scopes.length > 1 then { t with scopes := t.scopes.dropLast } else t

/-- `SymbolTable::define`: error if the name already exists in the current
(innermost) scope.  The Rust `expect("no scope")` on an empty scope stack is
an error value here; it is unreachable from `new`. -/
def SymbolTable.define (t : SymbolTable) (sym : Symbol) :
    Except String SymbolTable :=
  match t.scopes.getLast? with
  | none => .error "no scope"
  | some scope =>
    if assocContains scope sym.name then
      .error ("symbol " ++ sym.name ++ " already defined in this scope")
    else
      .ok { t with scopes := t.scopes.dropLast ++ [assocInsert scope sym.name sym] }

/-- `SymbolTable::lookup`: innermost scope first. -/
def SymbolTable.lookup (t : SymbolTable) (name : String) : Option Symbol :=
  t.scopes.reverse.findSome? (fun sc => assocGet sc name)

/-- `SymbolTable::define_struct`. -/
def SymbolTable.define_struct (t : SymbolTable) (info : StructInfo) :
    Except String SymbolTable :=
  if assocContains t.structs info.name then
    .error ("struct " ++ info.name ++ " already defined")
  else .ok { t with structs := assocInsert t.structs info.name info }

/-- `SymbolTable::lookup_struct`. -/
def SymbolTable.lookup_struct (t : SymbolTable) (name : String) : Option StructInfo :=
  assocGet t.structs name

/-- `SymbolTable::define_function`. -/
def SymbolTable.define_function (t : SymbolTable) (name : String)
    (ty : ResolvedType) : Except String SymbolTable :=
  if assocContains t.functions name then
    .error ("function " ++ name ++ " already defined")
  else .ok { t with functions := assocInsert t.functions name ty }

/-- `SymbolTable::lookup_function`. -/
def SymbolTable.lookup_function (t : SymbolTable) (name : String) :
    Option ResolvedType :=
  assocGet t.functions name

/-! ## Type checker (typechecker/mod.rs) -/

/-- Type check error (typechecker/mod.rs, `TypeError`). -/
structure TypeError where
  message : String
  line : Nat
  column : Nat
deriving DecidableEq

/-- Type checker state (typechecker/mod.rs, `TypeChecker`). -/
structure TypeChecker where
  symbols : SymbolTable
  errors : List TypeError
  current_return_type : Option ResolvedType

/-- `TypeChecker::new`. -/
def TypeChecker.new : TypeChecker := ⟨SymbolTable.new, [], none⟩

/-- Append a `TypeError` built from a span (`TypeError::new`). -/
def pushErr (tc : TypeChecker) (msg : String) (span : Span) : TypeChecker :=
  { tc with errors := tc.errors ++ [⟨msg, span.line, span.column⟩] }

/-- `TypeChecker::infer_literal_type`. -/
def infer_literal_type : Literal → ResolvedType
  | .Int _ _ => .Int
  | .Float _ _ => .Float
  | .String _ _ => .String
  | .Bool _ _ => .Bool

/-- The Rust `matches!(t, ResolvedType::Int | ResolvedType::Float)` test. -/
def isNumericRT : ResolvedType → Bool
  | .Int => true
  | .Float => true
  | _ => false

/-- `TypeChecker::check_binary_op`: the arithmetic widening table,
comparisons, logical and bitwise operators. -/
def check_binary_op (tc : TypeChecker) (left : ResolvedType) (op : BinOp)
    (right : ResolvedType) (span : Span) : ResolvedType × TypeChecker :=
  match op with
  | .Add | .Sub | .Mul | .Div | .Mod =>
    match left, right with
    | .Int, .Int => (.Int, tc)
    | .Float, .Float => (.Float, tc)
    | .Float, .Int => (.Float, tc)
    | .Int, .Float => (.Float, tc)
    | .String, .String =>
      if op = BinOp.Add then (.String, tc)
      else
        (.Error, pushErr tc ("cannot apply operator to " ++ display_name left
          ++ " and " ++ display_name right) span)
    | _, _ =>
      (.Error, pushErr tc ("cannot apply operator to " ++ display_name left
        ++ " and " ++ display_name right) span)
  | .Eq | .Ne | .Lt | .Gt | .Le | .Ge =>
    if eqb left right || (isNumericRT left && isNumericRT right) then
      (.Bool, tc)
    else
      (.Error, pushErr tc ("cannot compare " ++ display_name left ++ " and "
        ++ display_name right) span)
  | .And | .Or =>
    if eqb left .Bool ∧ eqb right .Bool then (.Bool, tc)
    else
      (.Error, pushErr tc ("logical operators require bool operands, found "
        ++ display_name left ++ " and " ++ display_name right) span)
  | .BitwiseAnd | .BitwiseOr | .BitwiseXor | .ShiftLeft | .ShiftRight =>
    match left, right with
    | .Int, .Int => (.Int, tc)
    | _, _ =>
      (.Error, pushErr tc ("bitwise operators require int operands, found "
        ++ display_name left ++ " and " ++ display_name right) span)

/-- `TypeChecker::check_unary_op`. -/
def check_unary_op (tc : TypeChecker) (op : UnaryOp) (operand : ResolvedType)
    (span : Span) : ResolvedType × TypeChecker :=
  match op with
  | .Neg =>
    match operand with
    | .Int => (.Int, tc)
    | .Float => (.Float, tc)
    | _ => (.Error, pushErr tc ("cannot negate " ++ display_name operand) span)
  | .Not =>
    if eqb operand .Bool then (.Bool, tc)
    else (.Error, pushErr tc ("cannot apply logical not to "
      ++ display_name operand) span)
  | .BitwiseNot =>
    if eqb operand .Int then (.Int, tc)
    else (.Error, pushErr tc ("cannot apply bitwise not to "
      ++ display_name operand) span)

/-- `TypeChecker::check_member_access`. -/
def check_member_access (tc : TypeChecker) (obj : ResolvedType) (field : String)
    (span : Span) : ResolvedType × TypeChecker :=
  match obj with
  | .Struct name =>
    match tc.symbols.lookup_struct name with
    | some struct_info =>
      match assocGet struct_info.fields field with
      | some field_ty => (field_ty, tc)
      | none =>
        (.Error, pushErr tc ("struct " ++ name ++ " has no field " ++ field) span)
    | none => (.Error, pushErr tc ("undefined struct " ++ name) span)
  | .Error => (.Error, tc)
  | _ =>
    (.Error, pushErr tc ("cannot access field " ++ field ++ " on "
      ++ display_name obj) span)

/-- `TypeChecker::check_index`. -/
def check_index (tc : TypeChecker) (arr idx : ResolvedType) (span : Span) :
    ResolvedType × TypeChecker :=
  let tc1 :=
    if !eqb idx .Int then
      pushErr tc ("array index must be int, found " ++ display_name idx) span
    else tc
  match arr with
  | .Array inner => (inner, tc1)
  | .String => (.String, tc1)
  | .Error => (.Error, tc1)
  | _ => (.Error, pushErr tc1 ("cannot index into " ++ display_name arr) span)

mutual

/-- `TypeChecker::infer_expr_type`: recursive expression typing. -/
def infer_expr_type : Nat → TypeChecker → Expr → ResolvedType × TypeChecker
  | 0, tc, _ => (.Error, tc)
  | fuel + 1, tc, e =>
    match e with
    | .Literal lit => (infer_literal_type lit, tc)
    | .Identifier name span =>
      match tc.symbols.lookup name with
      | some sym => (sym.ty, tc)
      | none => (.Error, pushErr tc ("undefined variable " ++ name) span)
    | .Binary left op right span =>
      let (left_ty, tc1) := infer_expr_type fuel tc left
      let (right_ty, tc2) := infer_expr_type fuel tc1 right
      check_binary_op tc2 left_ty op right_ty span
    | .Unary op operand span =>
      let (operand_ty, tc1) := infer_expr_type fuel tc operand
      check_unary_op tc1 op operand_ty span
    | .Call callee args span =>
      let (callee_ty, tc1) := infer_expr_type fuel tc callee
      check_call fuel tc1 callee_ty args span
    | .Member obj field span =>
      let (obj_ty, tc1) := infer_expr_type fuel tc obj
      check_member_access tc1 obj_ty field span
    | .Index arr idx span =>
      let (arr_ty, tc1) := infer_expr_type fuel tc arr
      let (idx_ty, tc2) := infer_expr_type fuel tc1 idx
      check_index tc2 arr_ty idx_ty span
    | .Assign target value span =>
      let (target_ty, tc1) := infer_expr_type fuel tc target
      let (value_ty, tc2) := infer_expr_type fuel tc1 value
      if !is_assignable_from target_ty value_ty then
        (target_ty, pushErr tc2 ("cannot assign " ++ display_name value_ty
          ++ " to " ++ display_name target_ty) span)
      else (target_ty, tc2)
    | .StructLit name fields span =>
      match tc.symbols.lookup_struct name with
      | some struct_info =>
        let tc1 := checkStructFieldsLoop fuel tc name struct_info.fields fields span
        (.Struct name, tc1)
      | none => (.Error, pushErr tc ("undefined struct " ++ name) span)
    | .ArrayLit elements _ =>
      match elements with
      | [] => (.Array .Unknown, tc)
      | e0 :: _ =>
        let (elem_ty, tc1) := infer_expr_type fuel tc e0
        (.Array elem_ty, tc1)
    | .Match _ _ _ => (.Unknown, tc)
    | .CompoundAssign target _ value span =>
      let (target_ty, tc1) := infer_expr_type fuel tc target
      let (value_ty, tc2) := infer_expr_type fuel tc1 value
      if !is_assignable_from target_ty value_ty then
        (target_ty, pushErr tc2 ("cannot compound assign " ++ display_name value_ty
          ++ " to " ++ display_name target_ty) span)
      else (target_ty, tc2)
    | .PreIncrement operand span | .PreDecrement operand span
    | .PostIncrement operand span | .PostDecrement operand span =>
      let (ty, tc1) := infer_expr_type fuel tc operand
      match ty with
      | .Int => (ty, tc1)
      | .Float => (ty, tc1)
      | _ =>
        (ty, pushErr tc1 ("cannot increment/decrement " ++ display_name ty) span)
    | .NullCoalesce left right _ =>
      let (_, tc1) := infer_expr_type fuel tc left
      infer_expr_type fuel tc1 right
    | .OptionalChain obj field span =>
      let (obj_ty, tc1) := infer_expr_type fuel tc obj
      check_member_access tc1 obj_ty field span
    | .TrailingClosure callee body _ =>
      let (callee_ty, tc1) := infer_expr_type fuel tc callee
      let tc2 := check_block fuel tc1 body
      match callee_ty with
      | .Function _ ret => (ret, tc2)
      | _ => (.Void, tc2)
    | .Nil _ => (.Unknown, tc)
    | .Await operand _ => infer_expr_type fuel tc operand

/-- The struct-literal field loop inside `infer_expr_type`
(`Expr::StructLit` arm). -/
def checkStructFieldsLoop : Nat → TypeChecker → String →
    List (String × ResolvedType) → List (String × Expr) → Span → TypeChecker
  | 0, tc, _, _, _, _ => tc
  | _fuel + 1, tc, _, _, [], _ => tc
  | fuel + 1, tc, name, expected_fields, (field_name, value) :: rest, span =>
    let (value_ty, tc1) := infer_expr_type fuel tc value
    let tc2 :=
      match assocGet expected_fields field_name with
      | some expected_ty =>
        if !is_assignable_from expected_ty value_ty then
          pushErr tc1 ("field " ++ field_name ++ " expects "
            ++ display_name expected_ty ++ ", found "
            ++ display_name value_ty) span
        else tc1
      | none =>
        pushErr tc1 ("struct " ++ name ++ " has no field " ++ field_name) span
    checkStructFieldsLoop fuel tc2 name expected_fields rest span

/-- `TypeChecker::check_call`. -/
def check_call : Nat → TypeChecker → ResolvedType → List Expr → Span →
    ResolvedType × TypeChecker
  | 0, tc, _, _, _ => (.Error, tc)
  | fuel + 1, tc, callee, args, span =>
    match callee with
    | .Function params ret =>
      if args.length ≠ params.length then
        (ret, pushErr tc ("expected " ++ toString params.length
          ++ " arguments, found " ++ toString args.length) span)
      else
        let tc1 := checkArgsLoop fuel tc (args.zip params) 0 span
        (ret, tc1)
    | .Error => (.Error, tc)
    | _ =>
      (.Error, pushErr tc (display_name callee ++ " is not callable") span)

/-- The argument loop of `TypeChecker::check_call`. -/
def checkArgsLoop : Nat → TypeChecker → List (Expr × ResolvedType) → Nat →
    Span → TypeChecker
  | 0, tc, _, _, _ => tc
  | _fuel + 1, tc, [], _, _ => tc
  | fuel + 1, tc, (arg, param) :: rest, i, span =>
    let (arg_ty, tc1) := infer_expr_type fuel tc arg
    let tc2 :=
      if !is_assignable_from param arg_ty then
        pushErr tc1 ("argument " ++ toString (i + 1)
          ++ " type mismatch: expected " ++ display_name param
          ++ ", found " ++ display_name arg_ty) span
      else tc1
    checkArgsLoop fuel tc2 rest (i + 1) span

/-- `TypeChecker::check_block`: check the statements in order. -/
def check_block : Nat → TypeChecker → Block → TypeChecker
  | 0, tc, _ => tc
  | fuel + 1, tc, b => checkStmtsLoop fuel tc b.statements

def checkStmtsLoop : Nat → TypeChecker → List Stmt → TypeChecker
  | 0, tc, _ => tc
  | _fuel + 1, tc, [] => tc
  | fuel + 1, tc, s :: rest =>
    let tc1 := check_statement fuel tc s
    checkStmtsLoop fuel tc1 rest

/-- `TypeChecker::check_statement`. -/
def check_statement : Nat → TypeChecker → Stmt → TypeChecker
  | 0, tc, _ => tc
  | fuel + 1, tc, s =>
    match s with
    | .Let l => check_let fuel tc l
    | .Return r => check_return fuel tc r
    | .If i => check_if fuel tc i
    | .While w => check_while fuel tc w
    | .For f => check_for fuel tc f
    | .Expr e => (infer_expr_type fuel tc e).2
    | .Block b =>
      let tc1 := { tc with symbols := tc.symbols.push_scope }
      let tc2 := check_block fuel tc1 b
      { tc2 with symbols := tc2.symbols.pop_scope }
    | .Break _ => tc
    | .Continue _ => tc
    | .Guard g =>
      let (cond_type, tc1) := infer_expr_type fuel tc g.condition
      let tc2 :=
        if !eqb cond_type .Bool then
          pushErr tc1 ("guard condition must be bool, found "
            ++ display_name cond_type) g.span
        else tc1
      let tc3 := { tc2 with symbols := tc2.symbols.push_scope }
      let tc4 := check_block fuel tc3 g.else_block
      { tc4 with symbols := tc4.symbols.pop_scope }
    | .Defer d =>
      let tc1 := { tc with symbols := tc.symbols.push_scope }
      let tc2 := check_block fuel tc1 d.body
      { tc2 with symbols := tc2.symbols.pop_scope }
    | .TryCatch t =>
      let tc1 := { tc with symbols := tc.symbols.push_scope }
      let tc2 := check_block fuel tc1 t.try_block
      let tc3 := { tc2 with symbols := tc2.symbols.pop_scope }
      let tc4 := { tc3 with symbols := tc3.symbols.push_scope }
      let tc5 :=
        match t.catch_var with
        | some var =>
          match tc4.symbols.define ⟨var, .String, false, .Variable⟩ with
          | .ok sy => { tc4 with symbols := sy }
          | .error _ => tc4
        | none => tc4
      let tc6 := check_block fuel tc5 t.catch_block
      { tc6 with symbols := tc6.symbols.pop_scope }
    | .Throw t => (infer_expr_type fuel tc t.value).2

/-- `TypeChecker::check_let`: infer the initializer, verify the annotation
is assignable from it, and define the symbol. -/
def check_let : Nat → TypeChecker → LetStmt → TypeChecker
  | 0, tc, _ => tc
  | fuel + 1, tc, l =>
    let declared_type := l.ty.map ResolvedType.from_parser_type
    let (inferred_type, tc1) :=
      match l.init with
      | some e =>
        let (t, tcn) := infer_expr_type fuel tc e
        (some t, tcn)
      | none => (none, tc)
    let (final_type, tc2) :=
      match declared_type, inferred_type with
      | some decl, some infr =>
        if !is_assignable_from decl infr then
          (decl, pushErr tc1 ("type mismatch: expected " ++ display_name decl
            ++ ", found " ++ display_name infr) l.span)
        else (decl, tc1)
      | some decl, none => (decl, tc1)
      | none, some infr => (infr, tc1)
      | none, none =>
        (.Error, pushErr tc1 "cannot infer type without initializer" l.span)
    match tc2.symbols.define ⟨l.name, final_type, l.mutable, .Variable⟩ with
    | .ok sy => { tc2 with symbols := sy }
    | .error msg =>
      { tc2 with errors := tc2.errors ++ [⟨msg, l.span.line, l.span.column⟩] }

/-- `TypeChecker::check_return`. -/
def check_return : Nat → TypeChecker → ReturnStmt → TypeChecker
  | 0, tc, _ => tc
  | fuel + 1, tc, r =>
    let (return_type, tc1) :=
      match r.value with
      | some e => infer_expr_type fuel tc e
      | none => (.Void, tc)
    match tc1.current_return_type with
    | some expected =>
      if !is_assignable_from expected return_type then
        pushErr tc1 ("return type mismatch: expected " ++ display_name expected
          ++ ", found " ++ display_name return_type) r.span
      else tc1
    | none => tc1

/-- `TypeChecker::check_if`. -/
def check_if : Nat → TypeChecker → IfStmt → TypeChecker
  | 0, tc, _ => tc
  | fuel + 1, tc, i =>
    let (cond_type, tc1) := infer_expr_type fuel tc i.condition
    let tc2 :=
      if !eqb cond_type .Bool then
        pushErr tc1 ("if condition must be bool, found "
          ++ display_name cond_type) i.span
      else tc1
    let tc3 := { tc2 with symbols := tc2.symbols.push_scope }
    let tc4 := check_block fuel tc3 i.then_block
    let tc5 := { tc4 with symbols := tc4.symbols.pop_scope }
    match i.else_block with
    | some else_block =>
      let tc6 := { tc5 with symbols := tc5.symbols.push_scope }
      let tc7 := check_block fuel tc6 else_block
      { tc7 with symbols := tc7.symbols.pop_scope }
    | none => tc5

/-- `TypeChecker::check_while`. -/
def check_while : Nat → TypeChecker → WhileStmt → TypeChecker
  | 0, tc, _ => tc
  | fuel + 1, tc, w =>
    let (cond_type, tc1) := infer_expr_type fuel tc w.condition
    let tc2 :=
      if !eqb cond_type .Bool then
        pushErr tc1 ("while condition must be bool, found "
          ++ display_name cond_type) w.span
      else tc1
    let tc3 := { tc2 with symbols := tc2.symbols.push_scope }
    let tc4 := check_block fuel tc3 w.body
    { tc4 with symbols := tc4.symbols.pop_scope }

/-- `TypeChecker::check_for`: the iterable must be an array, or an `Int`
treated as a range; the loop variable gets the element type. -/
def check_for : Nat → TypeChecker → ForStmt → TypeChecker
  | 0, tc, _ => tc
  | fuel + 1, tc, f =>
    let (iter_type, tc1) := infer_expr_type fuel tc f.iterable
    let (elem_type, tc2) :=
      match iter_type with
      | .Array inner => (inner, tc1)
      | .Int => (ResolvedType.Int, tc1)
      | _ =>
        (.Error, pushErr tc1 ("cannot iterate over "
          ++ display_name iter_type) f.span)
    let tc3 := { tc2 with symbols := tc2.symbols.push_scope }
    let tc4 :=
      match tc3.symbols.define ⟨f.var, elem_type, false, .Variable⟩ with
      | .ok sy => { tc3 with symbols := sy }
      | .error _ => tc3
    let tc5 := check_block fuel tc4 f.body
    { tc5 with symbols := tc5.symbols.pop_scope }

end

/-- `TypeChecker::register_struct`. -/
def register_struct (tc : TypeChecker) (s : StructDecl) : TypeChecker :=
  let fields := s.fields.foldl
    (fun m field => assocInsert m field.name (ResolvedType.from_parser_type field.ty)) []
  match tc.symbols.define_struct ⟨s.name, fields⟩ with
  | .ok sy => { tc with symbols := sy }
  | .error e =>
    { tc with errors := tc.errors ++ [(⟨e, s.span.line, s.span.column⟩ : TypeError)] }

/-- `TypeChecker::register_function`. -/
def register_function (tc : TypeChecker) (f : FnDecl) : TypeChecker :=
  let params := f.params.map (fun p => ResolvedType.from_parser_type p.ty)
  let ret := (f.return_type.map ResolvedType.from_parser_type).getD .Void
  let fn_type := ResolvedType.Function params ret
  let tc1 :=
    match tc.symbols.define_function f.name fn_type with
    | .ok sy => { tc with symbols := sy }
    | .error e =>
      { tc with errors := tc.errors ++ [(⟨e, f.span.line, f.span.column⟩ : TypeError)] }
  match tc1.symbols.define (⟨f.name, fn_type, false, .Function⟩ : Symbol) with
  | .ok sy => { tc1 with symbols := sy }
  | .error _ => tc1

/-- `TypeChecker::register_extern`. -/
def register_extern (tc : TypeChecker) (e : ExternDecl) : TypeChecker :=
  let params := e.params.map (fun p => ResolvedType.from_parser_type p.ty)
  let ret := (e.return_type.map ResolvedType.from_parser_type).getD .Void
  let fn_type := ResolvedType.Function params ret
  let tc1 :=
    match tc.symbols.define_function e.name fn_type with
    | .ok sy => { tc with symbols := sy }
    | .error msg =>
      { tc with errors := tc.errors ++ [(⟨msg, e.span.line, e.span.column⟩ : TypeError)] }
  match tc1.symbols.define (⟨e.name, fn_type, false, .Function⟩ : Symbol) with
  | .ok sy => { tc1 with symbols := sy }
  | .error _ => tc1

/-- `TypeChecker::check_function`: bind parameters in a fresh scope, set the
current return type, check the body. -/
def check_function (fuel : Nat) (tc : TypeChecker) (f : FnDecl) : TypeChecker :=
  let tc1 := { tc with symbols := tc.symbols.push_scope }
  let tc2 := f.params.foldl
    (fun acc param =>
      match acc.symbols.define
          ⟨param.name, ResolvedType.from_parser_type param.ty, false, .Parameter⟩ with
      | .ok sy => { acc with symbols := sy }
      | .error _ => acc)
    tc1
  let tc3 := { tc2 with
    current_return_type := f.return_type.map ResolvedType.from_parser_type }
  let tc4 := check_block fuel tc3 f.body
  let tc5 := { tc4 with current_return_type := none }
  { tc5 with symbols := tc5.symbols.pop_scope }

/-- `TypeChecker::check_program`: registration pass, then body checking. -/
def check_program (fuel : Nat) (tc : TypeChecker) (ast : Ast) : TypeChecker :=
  let tc1 := ast.declarations.foldl
    (fun acc d =>
      match d with
      | .Struct s => register_struct acc s
      | .Function f => register_function acc f
      | .ExternFn e => register_extern acc e
      | .Import _ => acc)
    tc
  ast.declarations.foldl
    (fun acc d =>
      match d with
      | .Function f => check_function fuel acc f
      | _ => acc)
    tc1

/-! ## Interpreter data model (interpreter/mod.rs)

Runtime values; the `NativeAction` function pointer is identified by the
name of the built-in it was registered under, and the built-ins that perform
I/O (file system, time, network, process, AI) are modelled by their
argument-mismatch defaults, which no claim observes. -/

/-- Runtime values (interpreter/mod.rs, `Value`). -/
inductive Value where
  | Nil
  | Bool (b : Bool)
  | Int (i : Int)
  | Float (f : F64)
  | String (s : String)
  | Array (elems : List Value)
  | Map (entries : List (String × Value))
  | Color (r g b a : Nat)
  | Struct (name : String) (fields : List (String × Value))
  | NativeAction (id : String)

/-- `Value::is_truthy`. -/
def is_truthy : Value → Bool
  | .Nil => false
  | .Bool b => b
  | .Int i => !(i = 0)
  | _ => true

/-- `Value::type_name`. -/
def type_name : Value → String
  | .Nil => "nil"
  | .Bool _ => "bool"
  | .Int _ => "int"
  | .Float _ => "float"
  | .String _ => "string"
  | .Array _ => "array"
  | .Map _ => "map"
  | .Color _ _ _ _ => "color"
  | .Struct _ _ => "struct"
  | .NativeAction _ => "native"

/-- `Interpreter::eq`: structural on nil, bool, int and string; everything
else compares unequal. -/
def eqValues : Value → Value → Bool
  | .Nil, .Nil => true
  | .Bool a, .Bool b => a = b
  | .Int a, .Int b => a = b
  | .String a, .String b => a = b
  | _, _ => false

/-- The lowest i64 value. -/
def i64Min : Int := -(2 ^ 63)

/-- Two's-complement wrap into the i64 range, the release-profile result of
overflowing Rust i64 arithmetic. -/
def wrap64 (x : Int) : Int := (x + 2 ^ 63) % 2 ^ 64 - 2 ^ 63

/-- Rust i64 `as u8` cast: the low 8 bits. -/
def asU8 (v : Int) : Nat := (v % 256).toNat

/-- Runtime error (interpreter/mod.rs, `RuntimeError`). -/
structure RuntimeError where
  message : String
deriving DecidableEq

/-- Evaluation outcome channel: a Reox `RuntimeError`, a Rust abort (the
always-on division/remainder overflow check), or fuel exhaustion of the
embedding (unreachable for sufficient fuel). -/
inductive EvalErr where
  | runtime (e : RuntimeError)
  | fatal (msg : String)
  | outOfFuel
deriving DecidableEq

/-- One environment scope. -/
abbrev ScopeV := List (String × Value)

/-- Interpreter environment (interpreter/mod.rs, `Environment`): stack of
scopes, global scope first, innermost scope last. -/
structure Environment where
  scopes : List ScopeV

/-- `Environment::define`: bind in the innermost scope (a no-op on an empty
scope stack, matching the Rust `last_mut().map(...)`). -/
def Environment.define (env : Environment) (n : String) (v : Value) : Environment :=
  match env.scopes.getLast? with
  | none => env
  | some sc => ⟨env.scopes.dropLast ++ [assocInsert sc n v]⟩

/-- `Environment::push`. -/
def Environment.push (env : Environment) : Environment :=
  ⟨env.scopes ++ [[]]⟩

/-- `Environment::pop`: the global scope is never popped. -/
def Environment.pop (env : Environment) : Environment :=
  if env.scopes.length > 1 then ⟨env.scopes.dropLast⟩ else env

/-- `Environment::get`: innermost scope first. -/
def Environment.get (env : Environment) (n : String) : Option Value :=
  env.scopes.reverse.findSome? (fun sc => assocGet sc n)

/-- The innermost-first update of `Environment::set`, on the reversed scope
stack. -/
def setRev (n : String) (v : Value) : List ScopeV → Option (List ScopeV)
  | [] => none
  | sc :: rest =>
    if assocContains sc n then some (assocInsert sc n v :: rest)
    else (setRev n v rest).map (fun l => sc :: l)

/-- `Environment::set`: mutate the innermost scope that already binds `n`;
report whether a binding was found. -/
def Environment.set (env : Environment) (n : String) (v : Value) :
    Bool × Environment :=
  match setRev n v env.scopes.reverse with
  | some l => (true, ⟨l.reverse⟩)
  | none => (false, env)

/-- The built-in names seeded into the global scope by `Environment::new`,
in registration order. -/
def builtinNames : List String :=
  ["print", "len", "push", "pop", "map_new", "map_set", "map_get",
   "rgba", "rgb", "hex", "ai_generate",
   "file_read", "file_write", "file_exists", "file_delete", "file_size",
   "dir_list", "time_now", "time_millis", "time_sleep",
   "env_get", "env_args", "process_exec", "random_int", "http_get"]

/-- `Environment::new`: a single global scope seeded with the built-ins. -/
def Environment.new : Environment :=
  builtinNames.foldl (fun env n => env.define n (.NativeAction n)) ⟨[[]]⟩

/-- The `hex` built-in body: strip leading hash signs, accept exactly six
hex digits, components default to 0 on parse failure. -/
def hexColor (s : String) : Value :=
  let hx := s.toList.dropWhile (fun c => c = '#')
  match hx with
  | [c1, c2, c3, c4, c5, c6] =>
    let comp (a b : Char) : Nat :=
      if isHexDigitChar a ∧ isHexDigitChar b then digitsVal 16 [a, b] else 0
    .Color (comp c1 c2) (comp c3 c4) (comp c5 c6) 255
  | _ => .Color 0 0 0 255

/-- Pure semantics of the built-in native actions (`Environment::new`
closures).  Collection and colour built-ins are modelled in full; the
I/O, time, process, network and AI built-ins return their failure or
argument-mismatch defaults, since their effectful results are outside this
embedding and no claim observes them. -/
def nativeImpl (id : String) (a : List Value) : Value :=
  match id with
  | "print" => .Nil
  | "len" =>
    match a.head? with
    | some (.Array v) => .Int v.length
    | some (.String s) => .Int s.length
    | some (.Map m) => .Int m.length
    | _ => .Int 0
  | "push" =>
    match a with
    | .Array arr :: x :: _ => .Array (arr ++ [x])
    | _ => .Nil
  | "pop" =>
    match a.head? with
    | some (.Array arr) => (arr.getLast?).getD .Nil
    | _ => .Nil
  | "map_new" => .Map []
  | "map_set" =>
    match a with
    | .Map m :: .String k :: v :: _ => .Map (assocInsert m k v)
    | _ => .Nil
  | "map_get" =>
    match a with
    | .Map m :: .String k :: _ => (assocGet m k).getD .Nil
    | _ => .Nil
  | "rgba" =>
    let comp (i : Nat) (dflt : Nat) : Nat :=
      match a[i]? with
      | some (.Int v) => asU8 v
      | _ => dflt
    .Color (comp 0 0) (comp 1 0) (comp 2 0) (comp 3 255)
  | "rgb" =>
    let comp (i : Nat) : Nat :=
      match a[i]? with
      | some (.Int v) => asU8 v
      | _ => 0
    .Color (comp 0) (comp 1) (comp 2) 255
  | "hex" =>
    match a.head? with
    | some (.String s) => hexColor s
    | _ => .Color 0 0 0 255
  | "ai_generate" => .String "Error: Expected model and prompt"
  | "file_read" => .String ""
  | "file_write" => .Bool false
  | "file_exists" => .Bool false
  | "file_delete" => .Bool false
  | "file_size" => .Int (-1)
  | "dir_list" => .Array []
  | "time_now" => .Int 0
  | "time_millis" => .Int 0
  | "time_sleep" => .Nil
  | "env_get" => .String ""
  | "env_args" => .Array []
  | "process_exec" => .String ""
  | "random_int" => .Int 0
  | "http_get" => .String ""
  | _ => .Nil

/-- `Interpreter::pat`: wildcard and identifier patterns always match;
literal patterns match equal int and bool values. -/
def patMatches (p : Pattern) (v : Value) : Bool :=
  match p with
  | .Wildcard => true
  | .Identifier _ => true
  | .Literal l =>
    match l, v with
    | .Int a _, .Int b => a = b
    | .Bool a _, .Bool b => a = b
    | _, _ => false

/-- `Interpreter::binop`.  Int arithmetic wraps (release-profile i64);
division and remainder keep the Rust guard `b != 0`, and the
`i64::MIN / -1` overflow, which aborts in every build profile, is the
`fatal` outcome.  Shift amounts are masked to their low six bits as in release builds. -/
def binop (l : Value) (o : BinOp) (r : Value) : Except EvalErr Value :=
  match o with
  | .Add =>
    match l, r with
    | .Int a, .Int b => .ok (.Int (wrap64 (a + b)))
    | .String a, .String b => .ok (.String (a ++ b))
    | _, _ => .error (.runtime ⟨"+"⟩)
  | .Sub =>
    match l, r with
    | .Int a, .Int b => .ok (.Int (wrap64 (a - b)))
    | _, _ => .error (.runtime ⟨"-"⟩)
  | .Mul =>
    match l, r with
    | .Int a, .Int b => .ok (.Int (wrap64 (a * b)))
    | _, _ => .error (.runtime ⟨"*"⟩)
  | .Div =>
    match l, r with
    | .Int a, .Int b =>
      if b ≠ 0 then
        if a = i64Min ∧ b = -1 then .error (.fatal "attempt to divide with overflow")
        else .ok (.Int (Int.tdiv a b))
      else .error (.runtime ⟨"/"⟩)
    | _, _ => .error (.runtime ⟨"/"⟩)
  | .Mod =>
    match l, r with
    | .Int a, .Int b =>
      if b ≠ 0 then
        if a = i64Min ∧ b = -1 then
          .error (.fatal "attempt to calculate the remainder with overflow")
        else .ok (.Int (Int.tmod a b))
      else .error (.runtime ⟨"%"⟩)
    | _, _ => .error (.runtime ⟨"%"⟩)
  | .Eq => .ok (.Bool (eqValues l r))
  | .Ne => .ok (.Bool (!eqValues l r))
  | .Lt =>
    match l, r with
    | .Int a, .Int b => .ok (.Bool (a < b))
    | _, _ => .error (.runtime ⟨"<"⟩)
  | .Gt =>
    match l, r with
    | .Int a, .Int b => .ok (.Bool (a > b))
    | _, _ => .error (.runtime ⟨">"⟩)
  | .Le =>
    match l, r with
    | .Int a, .Int b => .ok (.Bool (a ≤ b))
    | _, _ => .error (.runtime ⟨"<="⟩)
  | .Ge =>
    match l, r with
    | .Int a, .Int b => .ok (.Bool (a ≥ b))
    | _, _ => .error (.runtime ⟨">="⟩)
  | .And => .ok (.Bool (is_truthy l && is_truthy r))
  | .Or => .ok (.Bool (is_truthy l || is_truthy r))
  | .BitwiseAnd =>
    match l, r with
    | .Int a, .Int b => .ok (.Int (Int.land a b))
    | _, _ => .error (.runtime ⟨"&"⟩)
  | .BitwiseOr =>
    match l, r with
    | .Int a, .Int b => .ok (.Int (Int.lor a b))
    | _, _ => .error (.runtime ⟨"|"⟩)
  | .BitwiseXor =>
    match l, r with
    | .Int a, .Int b => .ok (.Int (Int.xor a b))
    | _, _ => .error (.runtime ⟨"^"⟩)
  | .ShiftLeft =>
    match l, r with
    | .Int a, .Int b => .ok (.Int (wrap64 (a * 2 ^ (b % 64).toNat)))
    | _, _ => .error (.runtime ⟨"<<"⟩)
  | .ShiftRight =>
    match l, r with
    | .Int a, .Int b => .ok (.Int (a >>> (b % 64).toNat))
    | _, _ => .error (.runtime ⟨">>"⟩)

/-- Interpreter state (interpreter/mod.rs, `Interpreter`). -/
structure Interpreter where
  env : Environment
  structs : List (String × StructDecl)
  functions : List (String × FnDecl)

/-- `Interpreter::new`. -/
def Interpreter.new : Interpreter := ⟨Environment.new, [], []⟩

/-- Parameter binding of `Interpreter::call`: `a.get(i)` falls back to
`Nil`. -/
def bindParams (it : Interpreter) (params : List Param) (a : List Value)
    (i : Nat) : Interpreter :=
  match params with
  | [] => it
  | p :: rest =>
    let v := (a[i]?).getD .Nil
    bindParams { it with env := it.env.define p.name v } rest a (i + 1)

mutual

/-- `Interpreter::expr`: expression evaluation.  The expression kinds the
Rust interpreter does not yet handle (compound assignment,
increment/decrement, optional chain, trailing closure, await) fall through
to `Nil`, as in the source. -/
def exprEval : Nat → Interpreter → Expr → Except EvalErr (Value × Interpreter)
  | 0, _, _ => .error .outOfFuel
  | fuel + 1, it, e =>
    match e with
    | .Literal l =>
      match l with
      | .Int i _ => .ok (.Int i, it)
      | .Float f _ => .ok (.Float f, it)
      | .String s _ => .ok (.String s, it)
      | .Bool b _ => .ok (.Bool b, it)
    | .Identifier n _ =>
      match it.env.get n with
      | some v => .ok (v, it)
      | none => .error (.runtime ⟨"undefined: " ++ n⟩)
    | .Binary l o r _ => do
      let (lv, it1) ← exprEval fuel it l
      let (rv, it2) ← exprEval fuel it1 r
      let v ← binop lv o rv
      .ok (v, it2)
    | .Unary o x _ => do
      let (v, it1) ← exprEval fuel it x
      match o with
      | .Neg =>
        match v with
        | .Int i => .ok (.Int (wrap64 (-i)), it1)
        | _ => .error (.runtime ⟨"-"⟩)
      | .Not => .ok (.Bool (!is_truthy v), it1)
      | .BitwiseNot =>
        match v with
        | .Int i => .ok (.Int (-(i + 1)), it1)
        | _ => .error (.runtime ⟨"~"⟩)
    | .Call c a _ =>
      match c with
      | .Identifier n _ => do
        let (vs, it1) ← exprListEval fuel it a
        match it1.env.get n with
        | some (.NativeAction id) => .ok (nativeImpl id vs, it1)
        | _ =>
          match assocGet it1.functions n with
          | some f => callFn fuel it1 f vs
          | none => .error (.runtime ⟨"call"⟩)
      | _ => .error (.runtime ⟨"call"⟩)
    | .Member o f _ => do
      let (ov, it1) ← exprEval fuel it o
      match ov with
      | .Struct _ fields =>
        match assocGet fields f with
        | some v => .ok (v, it1)
        | none => .error (.runtime ⟨"field"⟩)
      | _ => .error (.runtime ⟨"member"⟩)
    | .Index a i _ => do
      let (av, it1) ← exprEval fuel it a
      let (iv, it2) ← exprEval fuel it1 i
      match av, iv with
      | .Array arr, .Int idx =>
        -- the Rust `idx as usize` wraps a negative index to a huge one,
        -- which is out of bounds for any Vec
        if idx < 0 then .error (.runtime ⟨"bounds"⟩)
        else
          match arr[idx.toNat]? with
          | some v => .ok (v, it2)
          | none => .error (.runtime ⟨"bounds"⟩)
      | _, _ => .error (.runtime ⟨"index"⟩)
    | .Assign t v _ => do
      let (val, it1) ← exprEval fuel it v
      match t with
      | .Identifier n _ =>
        let (found, env1) := it1.env.set n val
        if found then .ok (val, { it1 with env := env1 })
        else .error (.runtime ⟨"undef"⟩)
      | _ => .error (.runtime ⟨"target"⟩)
    | .ArrayLit es _ => do
      let (vs, it1) ← exprListEval fuel it es
      .ok (.Array vs, it1)
    | .StructLit n fs _ => do
      let (m, it1) ← structFieldsEval fuel it fs []
      .ok (.Struct n m, it1)
    | .Match x arms _ => do
      let (v, it1) ← exprEval fuel it x
      matchArmsEval fuel it1 v arms
    | .Nil _ => .ok (.Nil, it)
    | .NullCoalesce left right _ => do
      let (lv, it1) ← exprEval fuel it left
      match lv with
      | .Nil => exprEval fuel it1 right
      | _ => .ok (lv, it1)
    | _ => .ok (.Nil, it)

/-- Left-to-right evaluation of an expression list (the
`a.iter().map(|x| self.expr(x)).collect::<Result<_,_>>()` idiom). -/
def exprListEval : Nat → Interpreter → List Expr →
    Except EvalErr (List Value × Interpreter)
  | 0, _, _ => .error .outOfFuel
  | _fuel + 1, it, [] => .ok ([], it)
  | fuel + 1, it, e :: rest => do
    let (v, it1) ← exprEval fuel it e
    let (vs, it2) ← exprListEval fuel it1 rest
    .ok (v :: vs, it2)

/-- The field-evaluation loop of the `Expr::StructLit` arm. -/
def structFieldsEval : Nat → Interpreter → List (String × Expr) →
    List (String × Value) → Except EvalErr (List (String × Value) × Interpreter)
  | 0, _, _, _ => .error .outOfFuel
  | _fuel + 1, it, [], acc => .ok (acc, it)
  | fuel + 1, it, (k, e) :: rest, acc => do
    let (v, it1) ← exprEval fuel it e
    structFieldsEval fuel it1 rest (assocInsert acc k v)

/-- The arm loop of the `Expr::Match` arm: first matching pattern wins,
otherwise `Nil`. -/
def matchArmsEval : Nat → Interpreter → Value → List MatchArm →
    Except EvalErr (Value × Interpreter)
  | 0, _, _, _ => .error .outOfFuel
  | _fuel + 1, it, _, [] => .ok (.Nil, it)
  | fuel + 1, it, v, arm :: rest =>
    if patMatches arm.pattern v then exprEval fuel it arm.body
    else matchArmsEval fuel it v rest

/-- `Interpreter::call`: push a scope, bind parameters by position (missing
arguments become `Nil`), evaluate the body, pop.  On an error result the
Rust code also pops before propagating; the embedding drops the state with
the error. -/
def callFn : Nat → Interpreter → FnDecl → List Value →
    Except EvalErr (Value × Interpreter)
  | 0, _, _, _ => .error .outOfFuel
  | fuel + 1, it, f, a =>
    let it1 := { it with env := it.env.push }
    let it2 := bindParams it1 f.params a 0
    match blockEval fuel it2 f.body with
    | .ok (v, it3) => .ok (v, { it3 with env := it3.env.pop })
    | .error e => .error e

/-- `Interpreter::block`: evaluate the statements in order, keeping the last
value; stop and return as soon as a statement that is directly a
`Stmt::Return` has been evaluated. -/
def blockEval : Nat → Interpreter → Block → Except EvalErr (Value × Interpreter)
  | 0, _, _ => .error .outOfFuel
  | fuel + 1, it, b => blockLoop fuel it .Nil b.statements

/-- The statement loop of `Interpreter::block`, carrying the running
value `r`. -/
def blockLoop : Nat → Interpreter → Value → List Stmt →
    Except EvalErr (Value × Interpreter)
  | 0, _, _, _ => .error .outOfFuel
  | _fuel + 1, it, r, [] => .ok (r, it)
  | fuel + 1, it, _, s :: rest => do
    let (v, it1) ← stmtEval fuel it s
    match s with
    | .Return _ => .ok (v, it1)
    | _ => blockLoop fuel it1 v rest

/-- `Interpreter::stmt`.  The statement kinds the Rust interpreter does not
execute (break, continue, guard, defer, try/catch, throw) evaluate to
`Nil`. -/
def stmtEval : Nat → Interpreter → Stmt → Except EvalErr (Value × Interpreter)
  | 0, _, _ => .error .outOfFuel
  | fuel + 1, it, s =>
    match s with
    | .Let l => do
      let (v, it1) ←
        match l.init with
        | some e => exprEval fuel it e
        | none => .ok (.Nil, it)
      .ok (.Nil, { it1 with env := it1.env.define l.name v })
    | .Expr e => exprEval fuel it e
    | .Return r =>
      match r.value with
      | some e => exprEval fuel it e
      | none => .ok (.Nil, it)
    | .If i => do
      let (c, it1) ← exprEval fuel it i.condition
      if is_truthy c then blockEval fuel it1 i.then_block
      else
        match i.else_block with
        | some b => blockEval fuel it1 b
        | none => .ok (.Nil, it1)
    | .While w => whileLoop fuel it w
    | .For f => do
      let (v, it1) ← exprEval fuel it f.iterable
      match v with
      | .Array a => do
        let it2 ← forLoop fuel it1 f.var a f.body
        .ok (.Nil, it2)
      | _ => .ok (.Nil, it1)
    | .Block b => blockEval fuel it b
    | _ => .ok (.Nil, it)

/-- The `Stmt::While` loop: re-evaluate the condition, run the body while
truthy, result `Nil`. -/
def whileLoop : Nat → Interpreter → WhileStmt →
    Except EvalErr (Value × Interpreter)
  | 0, _, _ => .error .outOfFuel
  | fuel + 1, it, w => do
    let (c, it1) ← exprEval fuel it w.condition
    if is_truthy c then do
      let (_, it2) ← blockEval fuel it1 w.body
      whileLoop fuel it2 w
    else .ok (.Nil, it1)

/-- The `Stmt::For` iteration loop: fresh scope per element, loop variable
bound to the element, body value discarded. -/
def forLoop : Nat → Interpreter → String → List Value → Block →
    Except EvalErr Interpreter
  | 0, _, _, _, _ => .error .outOfFuel
  | _fuel + 1, it, _, [], _ => .ok it
  | fuel + 1, it, var, x :: rest, body => do
    let it1 := { it with env := (it.env.push).define var x }
    let (_, it2) ← blockEval fuel it1 body
    let it3 := { it2 with env := it2.env.pop }
    forLoop fuel it3 var rest body

end

/-- `Interpreter::eval`: register struct and function declarations, then
call a zero-argument `main` if present. -/
def evalAst (fuel : Nat) (it : Interpreter) (ast : Ast) :
    Except EvalErr (Value × Interpreter) :=
  let it1 := ast.declarations.foldl
    (fun acc d =>
      match d with
      | .Struct s => { acc with structs := assocInsert acc.structs s.name s }
      | .Function f => { acc with functions := assocInsert acc.functions f.name f }
      | _ => acc)
    it
  match assocGet it1.functions "main" with
  | some f => callFn fuel it1 f []
  | none => .ok (.Nil, it1)

/-- Top-level `eval` (interpreter/mod.rs): run a fresh interpreter. -/
def eval (fuel : Nat) (ast : Ast) : Except EvalErr Value :=
  (evalAst fuel Interpreter.new ast).map (fun x => x.1)

/-- End-to-end pipeline for a source text: tokenize, parse, interpret.
`none` when any stage fails. -/
def interpretSource (fuel : Nat) (source : List Char) : Option Value :=
  match tokenize source with
  | .error _ => none
  | .ok tokens =>
    match parse_program (tokens.length * 64 + 64) ⟨tokens, 0⟩ with
    | .error _ => none
    | .ok (program, _) =>
      match eval fuel program with
      | .ok v => some v
      | .error _ => none

/-! ## Definitions used by the claim statements -/

/-- Total input length seen from a lexer state: characters consumed plus
characters remaining.  Constant along a scan. -/
def totalLen (st : LexState) : Nat := st.pos + st.rest.length

/-- The `current_pos` bookkeeping invariant of the lexer: either nothing has
been consumed yet, or `currentPos` is the index of the last consumed
character. -/
def cpInv (st : LexState) : Prop :=
  st.currentPos + 1 = st.pos ∨ (st.pos = 0 ∧ st.currentPos = 0)

/-- The eight multi-character operators of the maximal-munch claim, mapped
to the token the scanner must produce. -/
def digraphLookup (c1 c2 : Char) : Option TokenKind :=
  match c1, c2 with
  | '?', '?' => some .QuestionQuestion
  | '?', '.' => some .QuestionDot
  | '>', '>' => some .ShiftRight
  | '<', '<' => some .ShiftLeft
  | '=', '=' => some .EqEq
  | '=', '>' => some .FatArrow
  | '+', '+' => some .PlusPlus
  | '-', '-' => some .MinusMinus
  | _, _ => none

/-- The error-message symbol of each arithmetic binary operator in
`Interpreter::binop`. -/
def binopSym : BinOp → String
  | .Add => "+"
  | .Sub => "-"
  | .Mul => "*"
  | .Div => "/"
  | .Mod => "%"
  | .Eq => "=="
  | .Ne => "!="
  | .Lt => "<"
  | .Gt => ">"
  | .Le => "<="
  | .Ge => ">="
  | .And => "&&"
  | .Or => "||"
  | .BitwiseAnd => "&"
  | .BitwiseOr => "|"
  | .BitwiseXor => "^"
  | .ShiftLeft => "<<"
  | .ShiftRight => ">>"

/-- The amended arithmetic table of the interpreter, stated from the
amended claim C1: arithmetic accepts `Int × Int` (wrapping result; zero
divisor raises the runtime error of the operator, `i64::MIN / -1` aborts),
`String + String` concatenates, and every other combination - every
`Float` combination included - raises the operator's runtime error. -/
def arithSpecTable (l : Value) (op : BinOp) (r : Value) : Except EvalErr Value :=
  match l, op, r with
  | .Int a, .Add, .Int b => .ok (.Int (wrap64 (a + b)))
  | .Int a, .Sub, .Int b => .ok (.Int (wrap64 (a - b)))
  | .Int a, .Mul, .Int b => .ok (.Int (wrap64 (a * b)))
  | .Int a, .Div, .Int b =>
    if b = 0 then .error (.runtime ⟨"/"⟩)
    else if a = i64Min ∧ b = -1 then
      .error (.fatal "attempt to divide with overflow")
    else .ok (.Int (Int.tdiv a b))
  | .Int a, .Mod, .Int b =>
    if b = 0 then .error (.runtime ⟨"%"⟩)
    else if a = i64Min ∧ b = -1 then
      .error (.fatal "attempt to calculate the remainder with overflow")
    else .ok (.Int (Int.tmod a b))
  | .String a, .Add, .String b => .ok (.String (a ++ b))
  | _, op, _ => .error (.runtime ⟨binopSym op⟩)

/-- The i64 range of the division claim. -/
def inI64 (x : Int) : Prop := i64Min ≤ x ∧ x ≤ 2 ^ 63 - 1

/-- A push or pop on a scope stack. -/
inductive ScopeOp where
  | push
  | pop

/-- Run a sequence of push/pop operations on the interpreter environment. -/
def runEnvOps (env : Environment) (ops : List ScopeOp) : Environment :=
  ops.foldl (fun e op => match op with | .push => e.push | .pop => e.pop) env

/-- Run a sequence of push/pop operations on the checker symbol table. -/
def runSymOps (t : SymbolTable) (ops : List ScopeOp) : SymbolTable :=
  ops.foldl (fun e op => match op with | .push => e.push_scope | .pop => e.pop_scope) t

/-- Whether the single function of a source parses with a body of shape
`return a + (b * c);`, spans ignored: the observable of the precedence
claim. -/
def parsesAsAddMul (source : List Char) : Bool :=
  match tokenize source with
  | .error _ => false
  | .ok tokens =>
    match parse_program (tokens.length * 64 + 64) ⟨tokens, 0⟩ with
    | .error _ => false
    | .ok (program, _) =>
      match program.declarations with
      | [.Function f] =>
        match f.body.statements with
        | [.Return (.mk (some (.Binary (.Literal (.Int 2 _)) .Add
            (.Binary (.Literal (.Int 3 _)) .Mul (.Literal (.Int 4 _)) _) _)) _)] =>
          true
        | _ => false
      | _ => false

/-- The arithmetic-precedence scenario source,
`fn main() -> int { return 2 + 3 * 4; }`. -/
def srcC7 : List Char := "fn main() -> int \x7b return 2 + 3 * 4; \x7d".toList

/-- A function whose body is `if true { return 1; } return 0;`: the nested
return executes first, yet the trailing statement still runs. -/
def srcNestedReturn : List Char :=
  "fn main() -> int \x7b if true \x7b return 1; \x7d return 0; \x7d".toList

def stepOK (st st2 : LexState) : Prop :=
  totalLen st2 = totalLen st ∧ st.pos ≤ st2.pos ∧ (cpInv st → cpInv st2) ∧
  st2.rest.length ≤ st.rest.length

def nextOK (st0 : LexState) (t : Token) (st2 : LexState) : Prop :=
  stepOK st0 st2 ∧
  (kindIsEof t.kind = true → st2.rest = [] ∧ t = Token.eof st2.currentPos) ∧
  (kindIsEof t.kind = false → t.span.stop = st2.pos ∧ st2.rest.length < st0.rest.length)

/-! ## Supporting lemmas -/

/-- Element-wise list equality characterization for `eqbList`, assuming the
characterization for the elements of the left list. -/
theorem eqbList_iff_of (p1 p2 : List ResolvedType)
    (h : ∀ x ∈ p1, ∀ y, eqb x y = true ↔ x = y) :
    eqbList p1 p2 = true ↔ p1 = p2 := by
  induction p1 generalizing p2 with
  | nil => cases p2 <;> simp [eqbList]
  | cons a as1 ih =>
    cases p2 with
    | nil => simp [eqbList]
    | cons b bs =>
      have ha := h a (by simp)
      have hrest : ∀ x ∈ as1, ∀ y, eqb x y = true ↔ x = y :=
        fun x hx => h x (by simp [hx])
      simp [eqbList, Bool.and_eq_true, ha, ih bs hrest]

/-- Size-bounded induction step for the `eqb` characterization. -/
theorem eqb_iff_aux : ∀ (n : Nat) (a b : ResolvedType), sizeOf a ≤ n →
    (eqb a b = true ↔ a = b) := by
  intro n
  induction n with
  | zero =>
    intro a b h
    exfalso
    cases a <;> simp at h
  | succ n ih =>
    intro a b h
    cases a <;> cases b <;> simp [eqb] <;> try rfl
    case Array.Array a1 b1 =>
      exact ih a1 b1 (by simp at h; omega)
    case Function.Function p1 r1 p2 r2 =>
      simp at h
      have hr := ih r1 r2 (by omega)
      have hl := eqbList_iff_of p1 p2 (fun x hx y => ih x y (by
        have := List.sizeOf_lt_of_mem hx
        omega))
      rw [hl, hr]

/-- The structural comparison `eqb` decides equality of resolved types,
i.e. it is the Rust `#[derive(PartialEq)]` equality. -/
theorem eqb_iff (a b : ResolvedType) : eqb a b = true ↔ a = b :=
  eqb_iff_aux (sizeOf a) a b le_rfl

/-- `skip_whitespace_and_comments` does not move when the next character is
neither whitespace nor a comment opener. -/
theorem skipWs_noop (fuel : Nat) (st : LexState) (c : Char) (tl2 : List Char)
    (hr : st.rest = c :: tl2)
    (hws : ¬(c = ' ' ∨ c = '\t' ∨ c = '\r' ∨ c = '\n')) (hsl : c ≠ '/') :
    skipWs fuel st = st := by
  cases fuel with
  | zero => rfl
  | succ fuel =>
    simp only [skipWs, hr]
    rw [if_neg hws, if_neg hsl]

/-- Push/pop sequences on an interpreter environment keep the scope stack
nonempty and keep the bottom (global) scope unchanged. -/
theorem envOps_scopes (ops : List ScopeOp) :
    ∀ (env : Environment), env.scopes ≠ [] →
      (runEnvOps env ops).scopes ≠ [] ∧
      (runEnvOps env ops).scopes.head? = env.scopes.head? := by
  induction ops with
  | nil => intro env h; exact ⟨h, rfl⟩
  | cons op rest ih =>
    intro env h
    cases op with
    | push =>
      have h1 : (env.push).scopes ≠ [] := by simp [Environment.push]
      have h2 := ih env.push h1
      refine ⟨h2.1, h2.2.trans ?_⟩
      cases hs : env.scopes with
      | nil => exact absurd hs h
      | cons a l => simp [Environment.push, hs]
    | pop =>
      have hps : (env.pop).scopes ≠ [] ∧ (env.pop).scopes.head? = env.scopes.head? := by
        unfold Environment.pop
        split_ifs with hl
        · cases hs : env.scopes with
          | nil => rw [hs] at hl; simp at hl
          | cons a l =>
            cases l with
            | nil => rw [hs] at hl; simp at hl
            | cons b l2 => constructor <;> simp [List.dropLast]
        · exact ⟨h, rfl⟩
      have h2 := ih env.pop hps.1
      exact ⟨h2.1, h2.2.trans hps.2⟩

/-- Push/pop sequences on a checker symbol table keep the scope stack
nonempty and keep the bottom (global) scope unchanged. -/
theorem symOps_scopes (ops : List ScopeOp) :
    ∀ (t : SymbolTable), t.scopes ≠ [] →
      (runSymOps t ops).scopes ≠ [] ∧
      (runSymOps t ops).scopes.head? = t.scopes.head? := by
  induction ops with
  | nil => intro t h; exact ⟨h, rfl⟩
  | cons op rest ih =>
    intro t h
    cases op with
    | push =>
      have h1 : (t.push_scope).scopes ≠ [] := by simp [SymbolTable.push_scope]
      have h2 := ih t.push_scope h1
      refine ⟨h2.1, h2.2.trans ?_⟩
      cases hs : t.scopes with
      | nil => exact absurd hs h
      | cons a l => simp [SymbolTable.push_scope, hs]
    | pop =>
      have hps : (t.pop_scope).scopes ≠ [] ∧
          (t.pop_scope).scopes.head? = t.scopes.head? := by
        unfold SymbolTable.pop_scope
        split_ifs with hl
        · cases hs : t.scopes with
          | nil => rw [hs] at hl; simp at hl
          | cons a l =>
            cases l with
            | nil => rw [hs] at hl; simp at hl
            | cons b l2 => constructor <;> simp [List.dropLast]
        · exact ⟨h, rfl⟩
      have h2 := ih t.pop_scope hps.1
      exact ⟨h2.1, h2.2.trans hps.2⟩

theorem stepOK_refl (st : LexState) : stepOK st st :=
  ⟨rfl, le_rfl, id, le_rfl⟩

theorem stepOK_trans {a b c : LexState} (h1 : stepOK a b) (h2 : stepOK b c) :
    stepOK a c :=
  ⟨h2.1.trans h1.1, h1.2.1.trans h2.2.1, fun h => h2.2.2.1 (h1.2.2.1 h),
   h2.2.2.2.trans h1.2.2.2⟩

theorem adv_stepOK (st : LexState) : stepOK st st.adv := by
  obtain ⟨rest, l, c, p, cp⟩ := st
  cases rest with
  | nil => exact stepOK_refl _
  | cons ch tl =>
    simp only [LexState.adv]
    split_ifs <;>
      exact ⟨by simp [totalLen]; omega, by simp, fun _ => Or.inl rfl, by simp⟩

theorem adv_cons {st : LexState} {c : Char} {tl : List Char}
    (h : st.rest = c :: tl) :
    st.adv.pos = st.pos + 1 ∧ st.adv.rest = tl ∧ st.adv.currentPos = st.pos := by
  obtain ⟨rest, l, co, p, cp⟩ := st
  simp only at h
  subst h
  simp only [LexState.adv]
  split_ifs <;> exact ⟨rfl, rfl, rfl⟩

theorem skipLineComment_stepOK : ∀ (fuel : Nat) (st : LexState),
    stepOK st (skipLineComment fuel st) := by
  intro fuel
  induction fuel with
  | zero => intro st; exact stepOK_refl _
  | succ fuel ih =>
    intro st
    cases h : st.rest with
    | nil => simp only [skipLineComment, h]; exact stepOK_refl _
    | cons c tl =>
      simp only [skipLineComment, h]
      split_ifs with hc
      · exact stepOK_refl _
      · exact stepOK_trans (adv_stepOK st) (ih st.adv)

theorem skipBlockComment_stepOK : ∀ (fuel depth : Nat) (st : LexState),
    stepOK st (skipBlockComment fuel depth st) := by
  intro fuel
  induction fuel with
  | zero => intro depth st; exact stepOK_refl _
  | succ fuel ih =>
    intro depth st
    cases h : st.rest with
    | nil =>
      simp only [skipBlockComment, h]
      split_ifs <;> exact stepOK_refl _
    | cons c tl =>
      simp only [skipBlockComment, h]
      split_ifs with hd h1 h2
      · exact stepOK_refl _
      · exact stepOK_trans (adv_stepOK st)
          (stepOK_trans (adv_stepOK st.adv) (ih _ st.adv.adv))
      · exact stepOK_trans (adv_stepOK st)
          (stepOK_trans (adv_stepOK st.adv) (ih _ st.adv.adv))
      · exact stepOK_trans (adv_stepOK st) (ih _ st.adv)

theorem skipWs_stepOK : ∀ (fuel : Nat) (st : LexState),
    stepOK st (skipWs fuel st) := by
  intro fuel
  induction fuel with
  | zero => intro st; exact stepOK_refl _
  | succ fuel ih =>
    intro st
    cases h : st.rest with
    | nil => simp only [skipWs, h]; exact stepOK_refl _
    | cons c tl =>
      simp only [skipWs, h]
      split_ifs with h1 h2 h3
      · exact stepOK_trans (adv_stepOK st) (ih st.adv)
      · exact stepOK_trans (adv_stepOK st)
          (stepOK_trans (adv_stepOK st.adv)
            (stepOK_trans (skipLineComment_stepOK fuel st.adv.adv)
              (ih (skipLineComment fuel st.adv.adv))))
      · exact stepOK_trans (adv_stepOK st)
          (stepOK_trans (adv_stepOK st.adv)
            (stepOK_trans (skipBlockComment_stepOK fuel 1 st.adv.adv)
              (ih (skipBlockComment fuel 1 st.adv.adv))))
      · exact stepOK_refl _
      · exact stepOK_refl _

theorem scanIdentLoop_spec : ∀ (fuel : Nat) (st : LexState) (acc acc2 : List Char)
    (st2 : LexState), scanIdentLoop fuel st acc = (acc2, st2) →
    stepOK st st2 ∧ acc2.length + st.pos = acc.length + st2.pos := by
  intro fuel
  induction fuel with
  | zero =>
    intro st acc acc2 st2 h
    simp only [scanIdentLoop] at h
    obtain ⟨rfl, rfl⟩ := Prod.mk.injEq .. ▸ h
    exact ⟨stepOK_refl _, rfl⟩
  | succ fuel ih =>
    intro st acc acc2 st2 h
    cases hr : st.rest with
    | nil =>
      simp only [scanIdentLoop, hr] at h
      obtain ⟨rfl, rfl⟩ := h
      exact ⟨stepOK_refl _, rfl⟩
    | cons c tl =>
      simp only [scanIdentLoop, hr] at h
      split_ifs at h with hc
      · have hstep := ih st.adv (acc ++ [c]) acc2 st2 h
        have hadv := adv_cons hr
        refine ⟨stepOK_trans (adv_stepOK st) hstep.1, ?_⟩
        have := hstep.2
        simp [hadv.1] at this ⊢
        omega
      · obtain ⟨rfl, rfl⟩ := h
        exact ⟨stepOK_refl _, rfl⟩

theorem scanHexLoop_spec : ∀ (fuel : Nat) (st : LexState) (acc acc2 : List Char)
    (st2 : LexState), scanHexLoop fuel st acc = (acc2, st2) →
    stepOK st st2 ∧ acc2.length + st.pos = acc.length + st2.pos := by
  intro fuel
  induction fuel with
  | zero =>
    intro st acc acc2 st2 h
    simp only [scanHexLoop] at h
    obtain ⟨rfl, rfl⟩ := h
    exact ⟨stepOK_refl _, rfl⟩
  | succ fuel ih =>
    intro st acc acc2 st2 h
    cases hr : st.rest with
    | nil =>
      simp only [scanHexLoop, hr] at h
      obtain ⟨rfl, rfl⟩ := h
      exact ⟨stepOK_refl _, rfl⟩
    | cons c tl =>
      simp only [scanHexLoop, hr] at h
      split_ifs at h with hc
      · have hstep := ih st.adv (acc ++ [c]) acc2 st2 h
        have hadv := adv_cons hr
        refine ⟨stepOK_trans (adv_stepOK st) hstep.1, ?_⟩
        have := hstep.2
        simp [hadv.1] at this ⊢
        omega
      · obtain ⟨rfl, rfl⟩ := h
        exact ⟨stepOK_refl _, rfl⟩

theorem scanDecLoop_spec : ∀ (fuel : Nat) (st : LexState) (acc acc2 : List Char)
    (fl : Bool) (st2 : LexState) (fl2 : Bool),
    scanDecLoop fuel st acc fl = (acc2, st2, fl2) →
    stepOK st st2 ∧ acc2.length + st.pos = acc.length + st2.pos := by
  intro fuel
  induction fuel with
  | zero =>
    intro st acc acc2 fl st2 fl2 h
    simp only [scanDecLoop] at h
    obtain ⟨rfl, rfl, rfl⟩ := h
    exact ⟨stepOK_refl _, rfl⟩
  | succ fuel ih =>
    intro st acc acc2 fl st2 fl2 h
    cases hr : st.rest with
    | nil =>
      simp only [scanDecLoop, hr] at h
      obtain ⟨rfl, rfl, rfl⟩ := h
      exact ⟨stepOK_refl _, rfl⟩
    | cons c tl =>
      simp only [scanDecLoop, hr] at h
      have hadv := adv_cons hr
      split_ifs at h with hc hdot
      · have hstep := ih st.adv (acc ++ [c]) acc2 fl st2 fl2 h
        refine ⟨stepOK_trans (adv_stepOK st) hstep.1, ?_⟩
        have := hstep.2
        simp [hadv.1] at this ⊢
        omega
      · cases hh : tl.head? with
        | none =>
          rw [hh] at h
          dsimp only at h
          obtain ⟨rfl, rfl, rfl⟩ := h
          exact ⟨stepOK_refl _, rfl⟩
        | some nxt =>
          rw [hh] at h
          dsimp only at h
          split_ifs at h with hd
          · have hstep := ih st.adv (acc ++ [c]) acc2 true st2 fl2 h
            refine ⟨stepOK_trans (adv_stepOK st) hstep.1, ?_⟩
            have := hstep.2
            simp [hadv.1] at this ⊢
            omega
          · obtain ⟨rfl, rfl, rfl⟩ := h
            exact ⟨stepOK_refl _, rfl⟩
      · obtain ⟨rfl, rfl, rfl⟩ := h
        exact ⟨stepOK_refl _, rfl⟩

theorem scanStringLoop_spec : ∀ (fuel : Nat) (sl sc : Nat) (st : LexState)
    (acc val : List Char) (endPos : Nat) (st2 : LexState),
    scanStringLoop sl sc fuel st acc = .ok (val, endPos, st2) →
    stepOK st st2 ∧ st2.pos = endPos + 1 := by
  intro fuel
  induction fuel with
  | zero =>
    intro sl sc st acc val endPos st2 h
    simp [scanStringLoop] at h
  | succ fuel ih =>
    intro sl sc st acc val endPos st2 h
    cases hr : st.rest with
    | nil => simp [scanStringLoop, hr] at h
    | cons c tl =>
      simp only [scanStringLoop, hr] at h
      have hadv := adv_cons hr
      split_ifs at h with hq hb hnl
      · obtain ⟨rfl, rfl, rfl⟩ :
            val = acc ∧ endPos = st.pos ∧ st2 = st.adv := by
          cases h; exact ⟨rfl, rfl, rfl⟩
        exact ⟨adv_stepOK st, hadv.1⟩
      · cases tl with
        | nil => simp at h
        | cons e tl2 =>
          simp only at h
          have hstep2 : stepOK st st.adv.adv :=
            stepOK_trans (adv_stepOK st) (adv_stepOK st.adv)
          split_ifs at h with h1 h2 h3 h4 h5 h6
          all_goals
            first
            | (exact ⟨stepOK_trans hstep2 (ih _ _ _ _ _ _ _ h).1,
                      (ih _ _ _ _ _ _ _ h).2⟩)
            | simp at h
      all_goals
        first
        | simp at h
        | (exact ⟨stepOK_trans (adv_stepOK st) (ih _ _ _ _ _ _ _ h).1,
                  (ih _ _ _ _ _ _ _ h).2⟩)

theorem keyword_ne_eof : ∀ (s : String) (k : TokenKind),
    keyword_from_str s = some k → kindIsEof k = false := by
  intro s k h
  unfold keyword_from_str at h
  split at h <;> simp_all <;> subst h <;> rfl

theorem scan_identifier_spec (fuel : Nat) (st : LexState) (first : Char)
    (sl sc sp : Nat) (t : Token) (st2 : LexState)
    (h : scan_identifier fuel st first sl sc sp = (t, st2))
    (hpos : st.pos = sp + 1) :
    stepOK st st2 ∧ t.span.stop = st2.pos ∧ kindIsEof t.kind = false := by
  cases hscan : scanIdentLoop fuel st [first] with
  | mk chars st1 =>
    have hspec := scanIdentLoop_spec fuel st [first] chars st1 hscan
    simp only [scan_identifier, hscan] at h
    obtain ⟨rfl, rfl⟩ := h
    refine ⟨hspec.1, ?_, ?_⟩
    · have := hspec.2
      simp at this
      simp [Token.span]
      omega
    · cases hk : keyword_from_str ⟨chars⟩ with
      | none => simp [Token.kind, hk, kindIsEof]
      | some k => simp [Token.kind, hk]; exact keyword_ne_eof _ _ hk

theorem scan_number_spec (fuel : Nat) (st : LexState) (first : Char)
    (sl sc sp : Nat) (t : Token) (st2 : LexState)
    (h : scan_number fuel st first sl sc sp = .ok (t, st2))
    (hpos : st.pos = sp + 1) :
    stepOK st st2 ∧ t.span.stop = st2.pos ∧ kindIsEof t.kind = false := by
  simp only [scan_number] at h
  have hspecH := scanHexLoop_spec fuel st.adv []
      (scanHexLoop fuel st.adv []).1 (scanHexLoop fuel st.adv []).2 rfl
  have hspecD := scanDecLoop_spec fuel st [] (scanDecLoop fuel st [] false).1 false
      (scanDecLoop fuel st [] false).2.1 (scanDecLoop fuel st [] false).2.2 rfl
  by_cases hhex : first = '0' ∧ (st.rest.head? = some 'x' ∨ st.rest.head? = some 'X')
  · rw [if_pos hhex] at h
    split_ifs at h with hbad
    all_goals first
    | (exfalso; exact Except.noConfusion h)
    | (simp only [Except.ok.injEq, Prod.mk.injEq] at h
       obtain ⟨rfl, rfl⟩ := h
       obtain ⟨tl2, htl⟩ : ∃ tl2, st.rest = (st.rest.head?.getD 'x') :: tl2 := by
         rcases hhex.2 with hx | hx <;>
           (cases hrr : st.rest with
            | nil => rw [hrr] at hx; simp at hx
            | cons a b => rw [hrr] at hx; simp at hx; subst hx; simp [hrr])
       have hadv := adv_cons htl
       refine ⟨stepOK_trans (adv_stepOK st) hspecH.1, ?_, by simp [kindIsEof]⟩
       have := hspecH.2
       simp [hadv.1] at this
       simp
       omega)
  · rw [if_neg hhex] at h
    split_ifs at h with hfl hbig
    all_goals first
    | (exfalso; exact Except.noConfusion h)
    | (simp only [Except.ok.injEq, Prod.mk.injEq] at h
       obtain ⟨rfl, rfl⟩ := h
       refine ⟨hspecD.1, ?_, by simp [kindIsEof]⟩
       have h2 := hspecD.2
       show sp + 1 + (scanDecLoop fuel st [] false).1.length
           = (scanDecLoop fuel st [] false).2.1.pos
       simp at h2
       omega)

theorem scan_string_spec (fuel : Nat) (st : LexState)
    (sl sc sp : Nat) (t : Token) (st2 : LexState)
    (h : scan_string fuel st sl sc sp = .ok (t, st2)) :
    stepOK st st2 ∧ t.span.stop = st2.pos ∧ kindIsEof t.kind = false := by
  simp only [scan_string] at h
  cases hscan : scanStringLoop sl sc fuel st [] with
  | error e => rw [hscan] at h; simp [bind, Except.bind] at h
  | ok v =>
    obtain ⟨val, endPos, st1⟩ := v
    have hspec := scanStringLoop_spec fuel sl sc st [] val endPos st1 hscan
    rw [hscan] at h
    simp only [Except.bind, bind] at h
    simp only [Except.ok.injEq, Prod.mk.injEq] at h
    obtain ⟨rfl, rfl⟩ := h
    exact ⟨hspec.1, by simp [Token.span]; omega, by simp [Token.kind, kindIsEof]⟩

theorem nextOK_single (st0 st : LexState) (hws : stepOK st0 st) (ch : Char)
    (tl : List Char) (hr : st.rest = ch :: tl) (k : TokenKind)
    (hk : kindIsEof k = false) (sl sc : Nat) :
    nextOK st0 ⟨k, ⟨sl, sc, st.pos, st.pos + 1⟩⟩ st.adv := by
  have hadv := adv_cons hr
  refine ⟨stepOK_trans hws (adv_stepOK st), ?_, ?_⟩
  · intro hc; simp [hk] at hc
  · intro _
    refine ⟨hadv.1.symm, ?_⟩
    have h4 := hws.2.2.2
    rw [hr] at h4
    rw [hadv.2.1]
    simp at h4
    omega

theorem nextOK_double (st0 st : LexState) (hws : stepOK st0 st) (ch : Char)
    (tl : List Char) (hr : st.rest = ch :: tl) (htl : tl ≠ []) (k : TokenKind)
    (hk : kindIsEof k = false) (sl sc : Nat) :
    nextOK st0 ⟨k, ⟨sl, sc, st.pos, st.pos + 2⟩⟩ st.adv.adv := by
  obtain ⟨c2, tl2, rfl⟩ : ∃ c2 tl2, tl = c2 :: tl2 := by
    cases tl with
    | nil => exact absurd rfl htl
    | cons a b => exact ⟨a, b, rfl⟩
  have hadv := adv_cons hr
  have hadv2 := adv_cons (show st.adv.rest = c2 :: tl2 from hadv.2.1)
  refine ⟨stepOK_trans hws (stepOK_trans (adv_stepOK st) (adv_stepOK st.adv)), ?_, ?_⟩
  · intro hc; simp [hk] at hc
  · intro _
    constructor
    · show st.pos + 2 = st.adv.adv.pos
      rw [hadv2.1, hadv.1]
    · have h4 := hws.2.2.2
      rw [hr] at h4
      rw [hadv2.2.1]
      simp at h4
      omega

theorem nextOK_scan (st0 st : LexState) (hws : stepOK st0 st) (ch : Char)
    (tl : List Char) (hr : st.rest = ch :: tl) (t : Token) (st2 : LexState)
    (hstep : stepOK st.adv st2) (hstop : t.span.stop = st2.pos)
    (hk : kindIsEof t.kind = false) : nextOK st0 t st2 := by
  have hadv := adv_cons hr
  refine ⟨stepOK_trans hws (stepOK_trans (adv_stepOK st) hstep), ?_, ?_⟩
  · intro hc; rw [hk] at hc; cases hc
  · intro _
    refine ⟨hstop, ?_⟩
    have h4 := hstep.2.2.2
    have h5 := hws.2.2.2
    rw [hadv.2.1] at h4
    rw [hr] at h5
    simp at h5
    omega

theorem next_token_spec (fuel : Nat) (st0 : LexState) (t : Token) (st2 : LexState)
    (h : next_token fuel st0 = .ok (t, st2)) : nextOK st0 t st2 := by
  have hws := skipWs_stepOK fuel st0
  cases hr : (skipWs fuel st0).rest with
  | nil =>
    simp only [next_token, hr] at h
    simp only [Except.ok.injEq, Prod.mk.injEq] at h
    obtain ⟨rfl, rfl⟩ := h
    refine ⟨hws, fun _ => ⟨hr, rfl⟩, ?_⟩
    intro hc
    simp [Token.eof, kindIsEof] at hc
  | cons ch tl =>
    simp only [next_token, hr] at h
    split at h
    all_goals try split at h
    all_goals try split at h
    all_goals first
    | (exfalso; exact Except.noConfusion h)
    | (have spec := scan_string_spec fuel _ _ _ _ _ _ h
       exact nextOK_scan st0 _ hws _ _ hr _ _ spec.1 spec.2.1 spec.2.2)
    | (have spec := scan_number_spec fuel _ _ _ _ _ _ _ h (adv_cons hr).1
       exact nextOK_scan st0 _ hws _ _ hr _ _ spec.1 spec.2.1 spec.2.2)
    | (injection h with h2
       have spec := scan_identifier_spec fuel _ _ _ _ _ _ _ h2 (adv_cons hr).1
       exact nextOK_scan st0 _ hws _ _ hr _ _ spec.1 spec.2.1 spec.2.2)
    | (simp only [Except.ok.injEq, Prod.mk.injEq] at h
       obtain ⟨rfl, rfl⟩ := h
       first
       | exact nextOK_single st0 _ hws _ _ hr _ (by decide) _ _
       | exact nextOK_double st0 _ hws _ _ hr (by intro hn; simp_all) _ (by decide) _ _)

theorem tokenizeLoop_spec : ∀ (fuel : Nat) (st : LexState) (acc ts : List Token),
    tokenizeLoop fuel st acc = .ok ts →
    st.rest.length < fuel →
    ∃ ts0 st2, ts = acc ++ ts0 ++ [Token.eof st2.currentPos] ∧
      st2.rest = [] ∧ stepOK st st2 ∧
      ∀ t ∈ ts0, kindIsEof t.kind = false ∧ t.span.stop ≤ totalLen st := by
  intro fuel
  induction fuel with
  | zero =>
    intro st acc ts h hlt
    exact absurd hlt (by omega)
  | succ fuel ih =>
    intro st acc ts h hlt
    cases hnt : next_token (fuel + 1) st with
    | error e =>
      simp only [tokenizeLoop, hnt] at h
      exact absurd h (by simp)
    | ok p =>
      obtain ⟨tk, st1⟩ := p
      have hspec := next_token_spec (fuel + 1) st tk st1 hnt
      simp only [tokenizeLoop, hnt] at h
      cases heof : kindIsEof tk.kind with
      | true =>
        rw [heof] at h
        simp only [if_pos, Except.ok.injEq] at h
        obtain ⟨hrest, heq⟩ := hspec.2.1 heof
        refine ⟨[], st1, ?_, hrest, hspec.1, by simp⟩
        rw [← h, heq]
        simp
      | false =>
        rw [heof] at h
        rw [if_neg (by simp)] at h
        obtain ⟨hstop, hdec⟩ := hspec.2.2 heof
        have hlt1 : st1.rest.length < fuel := by omega
        obtain ⟨ts0, st2, hts, hrest2, hstep2, hall⟩ := ih st1 (acc ++ [tk]) ts h hlt1
        refine ⟨tk :: ts0, st2, ?_, hrest2, stepOK_trans hspec.1 hstep2, ?_⟩
        · rw [hts]; simp
        · intro t ht
          rcases List.mem_cons.mp ht with rfl | ht0
          · refine ⟨heof, ?_⟩
            rw [hstop]
            have h1 := hspec.1.1
            simp [totalLen] at h1 ⊢
            omega
          · have := hall t ht0
            have h1 := hspec.1.1
            refine ⟨this.1, ?_⟩
            have := this.2
            simp [totalLen] at h1 this ⊢
            omega

/-! ## Claim C1 -/

/-- C1 counterexample: the claim says `Float + Float` arithmetic yields a
`Float` in the interpreter, matching the type checker's widening table; the
interpreter's `binop` has no float arithmetic at all and raises
`RuntimeError` instead. -/
theorem C1_counterexample :
    binop (.Float "1.0") .Add (.Float "2.0") = .error (.runtime ⟨"+"⟩) := rfl

/-- C1 (amended): interpreter arithmetic accepts only `Int × Int` (with the
zero-divisor and `i64::MIN / -1` exceptions) and `String + String` for `+`;
every other combination — every `Float` combination included — raises the
operator's `RuntimeError`, even though the type checker widens the three
mixed numeric combinations to `Float`; unary `-` evaluates only `Int`
operands and raises `RuntimeError` on `Float`, though the checker accepts
it. -/
theorem C1_theorem :
    (∀ (op : BinOp), (op = .Add ∨ op = .Sub ∨ op = .Mul ∨ op = .Div ∨ op = .Mod) →
      ∀ l r, binop l op r = arithSpecTable l op r) ∧
    (∀ (op : BinOp) (tc : TypeChecker) (span : Span),
      (op = .Add ∨ op = .Sub ∨ op = .Mul ∨ op = .Div ∨ op = .Mod) →
      check_binary_op tc .Float op .Float span = (.Float, tc) ∧
      check_binary_op tc .Float op .Int span = (.Float, tc) ∧
      check_binary_op tc .Int op .Float span = (.Float, tc)) ∧
    (∀ (fuel : Nat) (it it1 : Interpreter) (x : Expr) (s : Span) (i : Int),
      exprEval fuel it x = .ok (.Int i, it1) →
      exprEval (fuel + 1) it (.Unary .Neg x s) = .ok (.Int (wrap64 (-i)), it1)) ∧
    (∀ (fuel : Nat) (it it1 : Interpreter) (x : Expr) (s : Span) (f : F64),
      exprEval fuel it x = .ok (.Float f, it1) →
      exprEval (fuel + 1) it (.Unary .Neg x s) = .error (.runtime ⟨"-"⟩)) ∧
    (∀ (tc : TypeChecker) (span : Span),
      check_unary_op tc .Neg .Float span = (.Float, tc)) := by
  refine ⟨?_, ?_, ?_, ?_, fun tc span => rfl⟩
  · rintro op (rfl | rfl | rfl | rfl | rfl) l r <;>
      cases l <;> cases r <;> try rfl
    all_goals
      simp only [binop, arithSpecTable]
      split_ifs <;> simp_all
  · rintro op tc span (rfl | rfl | rfl | rfl | rfl) <;> exact ⟨rfl, rfl, rfl⟩
  · intro fuel it it1 x s i h
    simp only [exprEval]
    rw [h]
    rfl
  · intro fuel it it1 x s f h
    simp only [exprEval]
    rw [h]
    rfl

/-- C1 witness: the amended table at concrete inputs. -/
theorem C1_witness :
    binop (.Float "1.5") .Add (.Int 2) = arithSpecTable (.Float "1.5") .Add (.Int 2) ∧
    exprEval 2 Interpreter.new
        (.Unary .Neg (.Literal (.Int 3 ⟨1, 1, 0, 1⟩)) ⟨1, 1, 0, 1⟩)
      = .ok (.Int (wrap64 (-3)), Interpreter.new) := by
  have h := C1_theorem
  exact ⟨h.1 .Add (Or.inl rfl) (.Float "1.5") (.Int 2),
    h.2.2.1 1 Interpreter.new Interpreter.new (.Literal (.Int 3 ⟨1, 1, 0, 1⟩))
      ⟨1, 1, 0, 1⟩ 3 rfl⟩

/-! ## Claim C2 -/

/-- C2 counterexample: in `fn main() -> int { if true { return 1; } return 0; }`
the nested `return 1` executes first, yet the interpreter still executes the
later statement of the enclosing block and the call evaluates to `Int 0`,
not `Int 1` — the early return does not propagate out of the `if`. -/
theorem C2_counterexample :
    interpretSource 99 srcNestedReturn = some (.Int 0) := rfl

/-- C2 (amended): a `return` that is a direct statement of the currently
evaluated block stops that block — no later statement of the same block
runs, and the return's value becomes the block's result — but the early
exit does not propagate through enclosing statements, so a return nested
inside `if`/`while`/`for` does not terminate the enclosing loop or
function. -/
theorem C2_theorem :
    (∀ (fuel : Nat) (it : Interpreter) (r : Value) (pre rest2 : List Stmt)
        (rs : ReturnStmt),
      blockLoop fuel it r (pre ++ Stmt.Return rs :: rest2) =
        blockLoop fuel it r (pre ++ [Stmt.Return rs])) ∧
    (∀ (fuel : Nat) (it it1 : Interpreter) (r v : Value) (rest2 : List Stmt)
        (rs : ReturnStmt),
      stmtEval fuel it (.Return rs) = .ok (v, it1) →
      blockLoop (fuel + 1) it r (Stmt.Return rs :: rest2) = .ok (v, it1)) := by
  constructor
  · intro fuel it r pre
    induction pre generalizing fuel it r with
    | nil =>
      intro rest2 rs
      cases fuel with
      | zero => rfl
      | succ fuel =>
        simp only [List.nil_append, blockLoop]
    | cons s pre ih =>
      intro rest2 rs
      cases fuel with
      | zero => rfl
      | succ fuel =>
        simp only [List.cons_append, blockLoop]
        cases h : stmtEval fuel it s with
        | error e => rfl
        | ok p =>
          obtain ⟨v, it2⟩ := p
          cases s <;> simp [Except.bind, ih]
  · intro fuel it it1 r v rest2 rs h
    simp only [blockLoop]
    rw [h]
    rfl

/-- C2 witness: a direct return stops its block at a concrete input. -/
theorem C2_witness :
    blockLoop 2 Interpreter.new .Nil
        [Stmt.Return (.mk none ⟨1, 1, 0, 0⟩), Stmt.Expr (.Nil ⟨1, 1, 0, 0⟩)]
      = .ok (.Nil, Interpreter.new) :=
  C2_theorem.2 1 Interpreter.new Interpreter.new .Nil .Nil
    [Stmt.Expr (.Nil ⟨1, 1, 0, 0⟩)] (.mk none ⟨1, 1, 0, 0⟩) rfl

/-! ## Claim C3 -/

/-- C3 counterexample: the claim says assignability holds whenever either
side is the `Error` type; `is_assignable_from` has no such case, so `Int`
is not assignable from `Error` nor `Error` from `Int`. -/
theorem C3_counterexample :
    is_assignable_from .Int .Error = false ∧ is_assignable_from .Error .Int = false :=
  ⟨rfl, rfl⟩

/-- C3 (amended): the assignability relation holds exactly for equal types
and for `Float` from `Int` (widening); there is no `Error`-suppression case
(`Error` is assignable only from `Error` itself, by reflexivity). -/
theorem C3_theorem (a b : ResolvedType) :
    is_assignable_from a b = true ↔ (a = b ∨ (a = .Float ∧ b = .Int)) := by
  unfold is_assignable_from
  by_cases h : eqb a b = true
  · have hab := (eqb_iff a b).mp h
    subst hab
    simp [h]
  · have hne : a ≠ b := fun he => h (he ▸ (eqb_iff a a).mpr rfl)
    simp only [h, Bool.false_eq_true, if_false]
    cases a <;> cases b <;> simp_all

/-! ## Claim C4 -/

/-- C4 counterexample: the claim says `let x: int = nil;` emits no type
error; the checker infers `Unknown` for `nil`, `Unknown` is not assignable
to `int`, and a type-mismatch diagnostic is emitted. -/
theorem C4_counterexample :
    (check_let 2 TypeChecker.new
        (.mk "x" false (some .Int) (some (.Nil ⟨1, 1, 0, 0⟩)) ⟨1, 1, 0, 0⟩)).errors
      = [⟨"type mismatch: expected int, found <unknown>", 1, 1⟩] := rfl

/-- C4 (amended): `nil` has resolved type `Unknown`, but `Unknown` is not
assignable to any declared type, so `let x: T = nil;` emits a type-mismatch
error for every declared type `T` (followed possibly by a duplicate-symbol
error from defining `x`). -/
theorem C4_theorem :
    (∀ (fuel : Nat) (tc : TypeChecker) (s : Span),
      infer_expr_type (fuel + 1) tc (.Nil s) = (.Unknown, tc)) ∧
    (∀ (fuel : Nat) (tc : TypeChecker) (name : String) (mu : Bool) (T : Ty) (s : Span),
      ∃ tail,
        (check_let (fuel + 2) tc (.mk name mu (some T) (some (.Nil s)) s)).errors
          = tc.errors ++
            (⟨"type mismatch: expected "
                ++ display_name (ResolvedType.from_parser_type T)
                ++ ", found <unknown>", s.line, s.column⟩ :: tail)) := by
  refine ⟨fun _ _ _ => rfl, ?_⟩
  intro fuel tc name mu T s
  have hna : is_assignable_from (ResolvedType.from_parser_type T) .Unknown = false := by
    cases T <;> rfl
  simp only [check_let, LetStmt.ty, LetStmt.init, LetStmt.name, LetStmt.mutable,
    LetStmt.span, Option.map]
  have hnil : infer_expr_type (fuel + 1) tc (.Nil s) = (.Unknown, tc) := rfl
  rw [hnil]
  simp only [hna, Bool.not_false, if_true]
  have hu : (display_name ResolvedType.Unknown) = "<unknown>" := rfl
  have hmsg : ∀ str : String, str ++ ", found " ++ display_name ResolvedType.Unknown
      = str ++ ", found <unknown>" := by
    intro str
    rw [hu, String.append_assoc]
    rfl
  cases hdef : tc.symbols.define
      ⟨name, ResolvedType.from_parser_type T, mu, .Variable⟩ with
  | ok sy =>
    refine ⟨[], ?_⟩
    simp [hdef, pushErr, hmsg]
  | error msg =>
    refine ⟨[⟨msg, s.line, s.column⟩], ?_⟩
    simp [hdef, pushErr, hmsg]

/-! ## Claim C5 -/

/-- C5 counterexample: on the one-character input `a` the final `Eof` token
has span `0..0`, the index of the last character, not the input length `1`. -/
theorem C5_counterexample :
    tokenize ['a'] =
      .ok [⟨.Ident "a", ⟨1, 1, 0, 1⟩⟩, ⟨.Eof, ⟨0, 0, 0, 0⟩⟩] ∧
    (⟨.Eof, ⟨0, 0, 0, 0⟩⟩ : Token).span.stop ≠ ['a'].length :=
  ⟨rfl, by decide⟩

/-- C5 (corrected): for every source on which `tokenize` succeeds, the token
stream is a list of non-`Eof` tokens whose spans end within the input length,
followed by exactly one `Eof` token; but the `Eof` span sits at the index of
the last consumed character (`length - 1` for nonempty input, `0` for empty
input), not at the input length itself. -/
theorem C5_theorem (source : List Char) (ts : List Token)
    (h : tokenize source = .ok ts) :
    ∃ ts0, ts = ts0 ++ [Token.eof (source.length - 1)] ∧
      ∀ t ∈ ts0, kindIsEof t.kind = false ∧ t.span.stop ≤ source.length := by
  have hloop := tokenizeLoop_spec (source.length + 1) ⟨source, 1, 1, 0, 0⟩ [] ts h
      (by simp)
  obtain ⟨ts0, st2, hts, hrest, hstep, hall⟩ := hloop
  have htot : totalLen st2 = source.length := by
    have h1 := hstep.1
    simpa [totalLen] using h1
  have hpos : st2.pos = source.length := by
    rw [← htot]
    simp [totalLen, hrest]
  have hcp : cpInv st2 := hstep.2.2.1 (Or.inr ⟨rfl, rfl⟩)
  have hcur : st2.currentPos = source.length - 1 := by
    rcases hcp with h1 | h2 <;> omega
  refine ⟨ts0, ?_, ?_⟩
  · rw [hts, hcur]
    simp
  · intro t ht
    have hm := hall t ht
    refine ⟨hm.1, ?_⟩
    have := hm.2
    simpa [totalLen] using this

/-- C5 witness: the invariant instantiated on the input `a`. -/
theorem C5_witness :
    ∃ ts0, [⟨.Ident "a", ⟨1, 1, 0, 1⟩⟩, ⟨.Eof, ⟨0, 0, 0, 0⟩⟩] =
        ts0 ++ [Token.eof (['a'].length - 1)] ∧
      ∀ t ∈ ts0, kindIsEof t.kind = false ∧ t.span.stop ≤ ['a'].length :=
  C5_theorem ['a'] _ rfl

/-! ## Claim C6 -/

/-- C6: maximal munch for the eight two-character operators of the claim.
Whenever the scanner starts a token at a position where the next two
characters form `??`, `?.`, `>>`, `<<`, `==`, `=>`, `++` or `--`, it emits
the single two-character token, spanning both characters and consuming
both — never the two shorter tokens — regardless of the surrounding state
(anything already consumed, and any following characters). -/
theorem C6_theorem (fuel : Nat) (st : LexState) (c1 c2 : Char)
    (tl2 : List Char) (k : TokenKind)
    (hd : digraphLookup c1 c2 = some k) (hr : st.rest = c1 :: c2 :: tl2) :
    next_token fuel st =
      .ok (⟨k, ⟨st.line, st.col, st.pos, st.pos + 2⟩⟩, st.adv.adv) := by
  unfold digraphLookup at hd
  split at hd
  all_goals try simp at hd
  all_goals
    subst hd
    have hws := skipWs_noop fuel st _ _ hr (by decide) (by decide)
    simp only [next_token, hws, hr]
    rfl

/-- C6 witness: scanning `??` at the start of an input. -/
theorem C6_witness :
    next_token 9 ⟨['?', '?'], 1, 1, 0, 0⟩ =
      .ok (⟨.QuestionQuestion, ⟨1, 1, 0, 2⟩⟩, ⟨[], 1, 3, 2, 1⟩) :=
  C6_theorem 9 ⟨['?', '?'], 1, 1, 0, 0⟩ '?' '?' [] .QuestionQuestion rfl rfl

/-! ## Claim C7 -/

/-- C7: lexing, parsing and interpreting
`fn main() -> int { return 2 + 3 * 4; }` succeeds with value `Int 14`, and
the parsed body has the shape `return 2 + (3 * 4);` — multiplication binds
tighter than addition. -/
theorem C7_theorem :
    interpretSource 99 srcC7 = some (.Int 14) ∧ parsesAsAddMul srcC7 = true :=
  ⟨rfl, rfl⟩

/-! ## Claim C8 -/

/-- C8 counterexample: at `a = i64::MIN`, `b = -1` the claim demands
`Int(a / b)`; the interpreter's `a / b` (and `a % b`) trips Rust's
always-on division-overflow check and aborts instead of returning a value
or a `RuntimeError`. -/
theorem C8_counterexample :
    binop (.Int i64Min) .Div (.Int (-1)) =
      .error (.fatal "attempt to divide with overflow") ∧
    binop (.Int i64Min) .Mod (.Int (-1)) =
      .error (.fatal "attempt to calculate the remainder with overflow") :=
  ⟨rfl, rfl⟩

/-- C8 (amended): for i64 operands, `/` and `%` on `Int` values raise a
`RuntimeError` exactly when the divisor is zero, abort on the single
overflowing pair `(i64::MIN, -1)`, and otherwise return the truncated
quotient `Int(a.tdiv b)` (resp. remainder `Int(a.tmod b)`). -/
theorem C8_theorem (a b : Int) (ha : inI64 a) (hb : inI64 b) :
    (b = 0 → binop (.Int a) .Div (.Int b) = .error (.runtime ⟨"/"⟩) ∧
             binop (.Int a) .Mod (.Int b) = .error (.runtime ⟨"%"⟩)) ∧
    (a = i64Min ∧ b = -1 →
      binop (.Int a) .Div (.Int b) = .error (.fatal "attempt to divide with overflow") ∧
      binop (.Int a) .Mod (.Int b) =
        .error (.fatal "attempt to calculate the remainder with overflow")) ∧
    (b ≠ 0 → ¬(a = i64Min ∧ b = -1) →
      binop (.Int a) .Div (.Int b) = .ok (.Int (Int.tdiv a b)) ∧
      binop (.Int a) .Mod (.Int b) = .ok (.Int (Int.tmod a b))) := by
  refine ⟨?_, ?_, ?_⟩
  · rintro rfl
    exact ⟨rfl, rfl⟩
  · rintro ⟨rfl, rfl⟩
    exact ⟨rfl, rfl⟩
  · intro hb0 hov
    refine ⟨?_, ?_⟩ <;> (simp only [binop]; split_ifs <;> simp_all)

/-- C8 witness: ordinary division at `7 / 2` and `7 % 2`. -/
theorem C8_witness :
    binop (.Int 7) .Div (.Int 2) = .ok (.Int (Int.tdiv 7 2)) ∧
    binop (.Int 7) .Mod (.Int 2) = .ok (.Int (Int.tmod 7 2)) :=
  (C8_theorem 7 2 (by constructor <;> norm_num [i64Min])
      (by constructor <;> norm_num [i64Min])).2.2
    (by norm_num) (by simp [i64Min])

/-! ## Claim C9 -/

/-- C9: under any sequence of push and pop operations, both the interpreter
environment and the checker symbol table keep at least one scope, and the
global scope created at construction — seeded with the built-ins in the
environment's case — is never removed. -/
theorem C9_theorem (ops : List ScopeOp) :
    (runEnvOps Environment.new ops).scopes ≠ [] ∧
    (runEnvOps Environment.new ops).scopes.head? = Environment.new.scopes.head? ∧
    (runSymOps SymbolTable.new ops).scopes ≠ [] ∧
    (runSymOps SymbolTable.new ops).scopes.head? = SymbolTable.new.scopes.head? ∧
    Environment.new.get "print" = some (.NativeAction "print") ∧
    Environment.new.scopes.length = 1 := by
  have he : (Environment.new).scopes ≠ [] := by
    intro hcon
    have hlen : (Environment.new).scopes.length = 1 := by rfl
    rw [hcon] at hlen
    simp at hlen
  have hs : (SymbolTable.new).scopes ≠ [] := by simp [SymbolTable.new]
  have h1 := envOps_scopes ops Environment.new he
  have h2 := symOps_scopes ops SymbolTable.new hs
  exact ⟨h1.1, h1.2, h2.1, h2.2, rfl, rfl⟩

/-! ## Claim C10 -/

/-- C10: when the iterable of a `for` statement evaluates to any non-array
value (for example an `Int`, which the type checker accepts as a range-like
iterable), the interpreter runs zero iterations of the body and the
statement completes normally with `Nil`, in the state left by evaluating
the iterable — no runtime error is raised. -/
theorem C10_theorem (fuel : Nat) (it it1 : Interpreter) (f : ForStmt) (v : Value)
    (h : exprEval fuel it f.iterable = .ok (v, it1))
    (hv : ∀ elems, v ≠ .Array elems) :
    stmtEval (fuel + 1) it (.For f) = .ok (.Nil, it1) := by
  simp only [stmtEval]
  rw [h]
  cases v <;> simp_all <;> rfl

/-- C10 witness: a `for` over the `Int` iterable `5` completes with `Nil`
without executing its body. -/
theorem C10_witness :
    stmtEval 2 Interpreter.new
        (.For (.mk "i" (.Literal (.Int 5 ⟨1, 1, 0, 0⟩)) (.mk [] ⟨1, 1, 0, 0⟩)
          ⟨1, 1, 0, 0⟩))
      = .ok (.Nil, Interpreter.new) :=
  C10_theorem 1 Interpreter.new Interpreter.new
    (.mk "i" (.Literal (.Int 5 ⟨1, 1, 0, 0⟩)) (.mk [] ⟨1, 1, 0, 0⟩) ⟨1, 1, 0, 0⟩)
    (.Int 5) rfl (fun elems h => by cases h)

end Reox
